import Mathlib

/-!
Verification development for the `stac_fastapi.globus_search` translation
layer: the CQL2 → Globus Search filter compiler
(`database_logic.cql_to_filter`, `database_logic.cql_translate_fieldname`),
the backend-document normalizer (`convert.search_doc_to_stac_item`) and the
aggregation client (`extensions/aggregration/client.GlobusSearchAggregationClient.aggregate`).

The Python code works on JSON-like dynamically typed values (dicts, lists,
strings, numbers).  We embed those values as the inductive type `Json`
below, and Python's fallible primitive operations (`d[k]`, `len`, `x in c`,
iteration, `assert`) as functions into `Except PyErr _`.  Python dicts are
modelled as association lists in insertion order: lookup finds the first
binding, assignment to an existing key updates it in place, assignment to a
fresh key appends, and `pop` removes the binding.  Documents arriving from
JSON have unique string keys and no internal aliasing, which is what this
value-level model assumes.
-/

/-- A JSON-like Python value.  Dict keys are themselves values (Python
dicts accept any hashable key; the `name`-to-key promotion in
`search_doc_to_stac_item` uses asset `name` values as keys verbatim).
Numbers are modelled as integers; no claim involves floats. -/
inductive Json where
  | null : Json
  | bool (b : Bool) : Json
  | num (n : Int) : Json
  | str (s : String) : Json
  | arr (elems : List Json) : Json
  | obj (fields : List (Json × Json)) : Json

mutual

/-- Structural decidable equality for `Json` (the derive handler does not
support this nested inductive). -/
def Json.decEq : (a b : Json) → Decidable (a = b)
  | .null, .null => .isTrue rfl
  | .bool a, .bool b =>
      if h : a = b then .isTrue (by rw [h]) else .isFalse (by intro he; injection he; contradiction)
  | .num a, .num b =>
      if h : a = b then .isTrue (by rw [h]) else .isFalse (by intro he; injection he; contradiction)
  | .str a, .str b =>
      if h : a = b then .isTrue (by rw [h]) else .isFalse (by intro he; injection he; contradiction)
  | .arr xs, .arr ys =>
      match Json.decEqList xs ys with
      | .isTrue h => .isTrue (by rw [h])
      | .isFalse h => .isFalse (by intro he; injection he; contradiction)
  | .obj fs, .obj gs =>
      match Json.decEqFields fs gs with
      | .isTrue h => .isTrue (by rw [h])
      | .isFalse h => .isFalse (by intro he; injection he; contradiction)
  | .null, .bool _ => .isFalse (by intro h; cases h)
  | .null, .num _ => .isFalse (by intro h; cases h)
  | .null, .str _ => .isFalse (by intro h; cases h)
  | .null, .arr _ => .isFalse (by intro h; cases h)
  | .null, .obj _ => .isFalse (by intro h; cases h)
  | .bool _, .null => .isFalse (by intro h; cases h)
  | .bool _, .num _ => .isFalse (by intro h; cases h)
  | .bool _, .str _ => .isFalse (by intro h; cases h)
  | .bool _, .arr _ => .isFalse (by intro h; cases h)
  | .bool _, .obj _ => .isFalse (by intro h; cases h)
  | .num _, .null => .isFalse (by intro h; cases h)
  | .num _, .bool _ => .isFalse (by intro h; cases h)
  | .num _, .str _ => .isFalse (by intro h; cases h)
  | .num _, .arr _ => .isFalse (by intro h; cases h)
  | .num _, .obj _ => .isFalse (by intro h; cases h)
  | .str _, .null => .isFalse (by intro h; cases h)
  | .str _, .bool _ => .isFalse (by intro h; cases h)
  | .str _, .num _ => .isFalse (by intro h; cases h)
  | .str _, .arr _ => .isFalse (by intro h; cases h)
  | .str _, .obj _ => .isFalse (by intro h; cases h)
  | .arr _, .null => .isFalse (by intro h; cases h)
  | .arr _, .bool _ => .isFalse (by intro h; cases h)
  | .arr _, .num _ => .isFalse (by intro h; cases h)
  | .arr _, .str _ => .isFalse (by intro h; cases h)
  | .arr _, .obj _ => .isFalse (by intro h; cases h)
  | .obj _, .null => .isFalse (by intro h; cases h)
  | .obj _, .bool _ => .isFalse (by intro h; cases h)
  | .obj _, .num _ => .isFalse (by intro h; cases h)
  | .obj _, .str _ => .isFalse (by intro h; cases h)
  | .obj _, .arr _ => .isFalse (by intro h; cases h)

def Json.decEqList : (xs ys : List Json) → Decidable (xs = ys)
  | [], [] => .isTrue rfl
  | [], _ :: _ => .isFalse (by intro h; cases h)
  | _ :: _, [] => .isFalse (by intro h; cases h)
  | x :: xs, y :: ys =>
      match Json.decEq x y, Json.decEqList xs ys with
      | .isTrue h1, .isTrue h2 => .isTrue (by rw [h1, h2])
      | .isFalse h1, _ => .isFalse (by intro he; injection he; contradiction)
      | _, .isFalse h2 => .isFalse (by intro he; injection he; contradiction)

def Json.decEqFields : (xs ys : List (Json × Json)) → Decidable (xs = ys)
  | [], [] => .isTrue rfl
  | [], _ :: _ => .isFalse (by intro h; cases h)
  | _ :: _, [] => .isFalse (by intro h; cases h)
  | (k, v) :: xs, (k', v') :: ys =>
      match Json.decEq k k', Json.decEq v v', Json.decEqFields xs ys with
      | .isTrue h1, .isTrue h2, .isTrue h3 => .isTrue (by rw [h1, h2, h3])
      | .isFalse h1, _, _ =>
          .isFalse (by intro he; injection he with hp ht; exact h1 (congrArg Prod.fst hp))
      | _, .isFalse h2, _ =>
          .isFalse (by intro he; injection he with hp ht; exact h2 (congrArg Prod.snd hp))
      | _, _, .isFalse h3 => .isFalse (by intro he; injection he with hp ht; exact h3 ht)

end

instance : DecidableEq Json := Json.decEq

instance {ε α : Type} [DecidableEq ε] [DecidableEq α] : DecidableEq (Except ε α) := fun a b =>
  match a, b with
  | .ok x, .ok y =>
      if h : x = y then .isTrue (by rw [h]) else .isFalse (by intro he; injection he; contradiction)
  | .error x, .error y =>
      if h : x = y then .isTrue (by rw [h]) else .isFalse (by intro he; injection he; contradiction)
  | .ok _, .error _ => .isFalse (by intro h; cases h)
  | .error _, .ok _ => .isFalse (by intro h; cases h)

/-- The Python exceptions raised by the embedded code paths. -/
inductive PyErr where
  | keyError (k : Json) : PyErr
  | typeError : PyErr
  | indexError : PyErr
  | assertionError : PyErr
  | notImplementedError (msg : String) : PyErr
  | valueError (msg : String) : PyErr
  | outOfFuel : PyErr
deriving DecidableEq

/-- First binding for a key in an insertion-ordered dict. -/
def lookupJ (k : Json) : List (Json × Json) → Option Json
  | [] => none
  | (k', v) :: rest => if k' = k then some v else lookupJ k rest

/-- Python `d[k] = v` on a dict: update the existing binding in place,
or append a fresh one. -/
def dictSetF (fields : List (Json × Json)) (k v : Json) : List (Json × Json) :=
  match fields with
  | [] => [(k, v)]
  | (k', v') :: rest =>
      if k' = k then (k', v) :: rest else (k', v') :: dictSetF rest k v

/-- Python `d.pop(k)`: remove the binding (the caller checks presence). -/
def dictPopF (fields : List (Json × Json)) (k : Json) : List (Json × Json) :=
  match fields with
  | [] => []
  | (k', v') :: rest =>
      if k' = k then rest else (k', v') :: dictPopF rest k

/-- Python subscript `container[key]`.  Dicts raise `KeyError` on a missing
key; lists and strings require an integer index (negative indices are not
used by the embedded code and are not modelled). -/
def pyGetItem (container key : Json) : Except PyErr Json :=
  match container with
  | .obj fields =>
      match lookupJ key fields with
      | some v => .ok v
      | none => .error (.keyError key)
  | .arr xs =>
      match key with
      | .num i =>
          if h : 0 ≤ i ∧ i.toNat < xs.length then .ok (xs.get ⟨i.toNat, h.2⟩)
          else .error .indexError
      | _ => .error .typeError
  | .str s =>
      match key with
      | .num i =>
          if 0 ≤ i ∧ i.toNat < s.length then
            .ok (.str (String.singleton (s.toList.getD i.toNat ' ')))
          else .error .indexError
      | _ => .error .typeError
  | _ => .error .typeError

/-- Python `needle in container`: key membership for dicts, element
membership for lists, substring test for strings, `TypeError` otherwise. -/
def pyContains (container needle : Json) : Except PyErr Bool :=
  match container with
  | .obj fields => .ok (fields.any (fun p => decide (p.1 = needle)))
  | .arr xs => .ok (xs.any (fun x => decide (x = needle)))
  | .str s =>
      match needle with
      | .str sub => .ok (decide (sub.toList <:+: s.toList))
      | _ => .error .typeError
  | _ => .error .typeError

/-- Python iteration (`for x in v` / `list(v)`): list elements, the
characters of a string (as one-character strings), or the keys of a dict. -/
def pyIter (v : Json) : Except PyErr (List Json) :=
  match v with
  | .arr xs => .ok xs
  | .str s => .ok (s.toList.map (fun c => .str (String.singleton c)))
  | .obj fields => .ok (fields.map Prod.fst)
  | _ => .error .typeError

/-- Python `len`. -/
def pyLen (v : Json) : Except PyErr Int :=
  match v with
  | .arr xs => .ok xs.length
  | .str s => .ok s.length
  | .obj fields => .ok fields.length
  | _ => .error .typeError

/-- Python `str()` as used in f-strings.  Faithful for scalars; container
values are rendered in a simplified bracket form (no embedded code path
puts a container into an error message on any input exercised here). -/
def jstr : Json → String
  | .null => "None"
  | .bool true => "True"
  | .bool false => "False"
  | .num n => toString n
  | .str s => s
  | .arr _ => "[...]"
  | .obj _ => "{...}"

example : pyGetItem (.obj [(.str "a", .num 1)]) (.str "a") = .ok (.num 1) := by decide
example : pyGetItem (.obj [(.str "a", .num 1)]) (.str "b") =
    .error (.keyError (.str "b")) := by decide
example : pyContains (.str "shop") (.str "op") = .ok true := by decide
example : pyContains (.str "sh") (.str "op") = .ok false := by decide

/-! ## The CQL2 → Globus Search filter compiler (`database_logic.py`) -/

/-- `database_logic.cql_translate_fieldname`: `id`, `collection`, `geometry`
pass through; every other name is prefixed with `properties.`. -/
def cql_translate_fieldname (fieldname : String) : String :=
  if fieldname = "id" ∨ fieldname = "collection" ∨ fieldname = "geometry" then fieldname
  else "properties." ++ fieldname

/-- `cql_translate_fieldname` applied to a raw JSON property value, as the
compiler does.  A non-string value never equals one of the three passthrough
strings, so Python formats it into the `properties.` prefix via the f-string. -/
def cql_translate_fieldnameJ (v : Json) : Json :=
  match v with
  | .str s => .str (cql_translate_fieldname s)
  | other => .str ("properties." ++ jstr other)

/-- Error-propagating map used to model the list comprehension
`[cql_to_filter(inner) for inner in cql_query["args"]]` (the first raised
exception aborts the comprehension). -/
def exceptMapList (f : Json → Except PyErr Json) : List Json → Except PyErr (List Json)
  | [] => .ok []
  | x :: xs =>
      match f x with
      | .error e => .error e
      | .ok y =>
          match exceptMapList f xs with
          | .error e => .error e
          | .ok ys => .ok (y :: ys)

/-- The `not` arm of `cql_to_filter`: compile the single argument; if the
compiled result is itself a `not` filter, return its inner filter
(double-negation elimination), otherwise wrap it in `not`. -/
def cqlArmNot (rec : Json → Except PyErr Json) (cql_query : Json) : Except PyErr Json :=
  -- inner = cql_to_filter(cql_query["args"][0])
  match pyGetItem cql_query (.str "args") with
  | .error e => .error e
  | .ok args =>
    match pyGetItem args (.num 0) with
    | .error e => .error e
    | .ok arg0 =>
      match rec arg0 with
      | .error e => .error e
      | .ok inner =>
        -- not(not(x)) == x
        match pyGetItem inner (.str "type") with
        | .error e => .error e
        | .ok ty =>
          if ty = .str "not" then pyGetItem inner (.str "filter")
          else .ok (.obj [(.str "type", .str "not"), (.str "filter", inner)])

/-- The `and`/`or` arm: compile each argument and emit
`{"type": cql_op, "filters": [...]}`. -/
def cqlArmAndOr (rec : Json → Except PyErr Json) (cql_query : Json) (cql_op : String) :
    Except PyErr Json :=
  match pyGetItem cql_query (.str "args") with
  | .error e => .error e
  | .ok args =>
    match pyIter args with
    | .error e => .error e
    | .ok xs =>
      match exceptMapList rec xs with
      | .error e => .error e
      | .ok fs => .ok (.obj [(.str "type", .str cql_op), (.str "filters", .arr fs)])

/-- The `=` arm: `assert len(args) == 2`, then emit a single-value
`match_any` on the raw property name (no field-name translation). -/
def cqlArmEq (cql_query : Json) : Except PyErr Json :=
  match pyGetItem cql_query (.str "args") with
  | .error e => .error e
  | .ok args =>
    match pyLen args with
    | .error e => .error e
    | .ok n =>
      if n = 2 then
        match pyGetItem args (.num 0) with
        | .error e => .error e
        | .ok arg0 =>
          match pyGetItem arg0 (.str "property") with
          | .error e => .error e
          | .ok prop =>
            match pyGetItem args (.num 1) with
            | .error e => .error e
            | .ok v =>
              .ok (.obj [(.str "type", .str "match_any"),
                         (.str "field_name", prop),
                         (.str "values", .arr [v])])
      else .error .assertionError

/-- The `<>` arm: like `=`, wrapped in `not`. -/
def cqlArmNeq (cql_query : Json) : Except PyErr Json :=
  match pyGetItem cql_query (.str "args") with
  | .error e => .error e
  | .ok args =>
    match pyLen args with
    | .error e => .error e
    | .ok n =>
      if n = 2 then
        match pyGetItem args (.num 0) with
        | .error e => .error e
        | .ok arg0 =>
          match pyGetItem arg0 (.str "property") with
          | .error e => .error e
          | .ok prop =>
            match pyGetItem args (.num 1) with
            | .error e => .error e
            | .ok v =>
              .ok (.obj [(.str "type", .str "not"),
                         (.str "filter",
                          .obj [(.str "type", .str "match_any"),
                                (.str "field_name", prop),
                                (.str "values", .arr [v])])])
      else .error .assertionError

/-- The `isNull` arm: `not(exists(field))` with field-name translation. -/
def cqlArmIsNull (cql_query : Json) : Except PyErr Json :=
  match pyGetItem cql_query (.str "args") with
  | .error e => .error e
  | .ok args =>
    match pyGetItem args (.num 0) with
    | .error e => .error e
    | .ok arg0 =>
      match pyGetItem arg0 (.str "property") with
      | .error e => .error e
      | .ok prop =>
        .ok (.obj [(.str "type", .str "not"),
                   (.str "filter",
                    .obj [(.str "type", .str "exists"),
                          (.str "field_name", cql_translate_fieldnameJ prop)])])

/-- The `<=` arm: `range` with `{from: "*", to: value}` on the translated
field. -/
def cqlArmLe (cql_query : Json) : Except PyErr Json :=
  match pyGetItem cql_query (.str "args") with
  | .error e => .error e
  | .ok args =>
    match pyGetItem args (.num 0) with
    | .error e => .error e
    | .ok arg0 =>
      match pyGetItem arg0 (.str "property") with
      | .error e => .error e
      | .ok prop =>
        match pyGetItem args (.num 1) with
        | .error e => .error e
        | .ok v =>
          .ok (.obj [(.str "type", .str "range"),
                     (.str "field_name", cql_translate_fieldnameJ prop),
                     (.str "values",
                      .arr [.obj [(.str "from", .str "*"), (.str "to", v)]])])

/-- The `>=` arm: `range` with `{from: value, to: "*"}` on the translated
field. -/
def cqlArmGe (cql_query : Json) : Except PyErr Json :=
  match pyGetItem cql_query (.str "args") with
  | .error e => .error e
  | .ok args =>
    match pyGetItem args (.num 0) with
    | .error e => .error e
    | .ok arg0 =>
      match pyGetItem arg0 (.str "property") with
      | .error e => .error e
      | .ok prop =>
        match pyGetItem args (.num 1) with
        | .error e => .error e
        | .ok v =>
          .ok (.obj [(.str "type", .str "range"),
                     (.str "field_name", cql_translate_fieldnameJ prop),
                     (.str "values",
                      .arr [.obj [(.str "from", v), (.str "to", .str "*")]])])

/-- The `in` arm: `match_any` with the full literal value list and the raw
property name (no field-name translation). -/
def cqlArmIn (cql_query : Json) : Except PyErr Json :=
  match pyGetItem cql_query (.str "args") with
  | .error e => .error e
  | .ok args =>
    match pyGetItem args (.num 0) with
    | .error e => .error e
    | .ok arg0 =>
      match pyGetItem arg0 (.str "property") with
      | .error e => .error e
      | .ok prop =>
        match pyGetItem args (.num 1) with
        | .error e => .error e
        | .ok vs =>
          .ok (.obj [(.str "type", .str "match_any"),
                     (.str "field_name", prop),
                     (.str "values", vs)])

/-- The `s_intersects`/`s_within` arm: `geo_shape` with `relation` set to
the operator's suffix (`cql_op[2:]`) and `shape` set to `args[1]`. -/
def cqlArmGeoShape (cql_query : Json) (cql_op : String) : Except PyErr Json :=
  match pyGetItem cql_query (.str "args") with
  | .error e => .error e
  | .ok args =>
    match pyGetItem args (.num 1) with
    | .error e => .error e
    | .ok shape =>
      .ok (.obj [(.str "type", .str "geo_shape"),
                 (.str "relation", .str (cql_op.drop 2)),
                 (.str "shape", shape)])

/-- `ValueError(f"The CQL filter type '{cql_op}' is not supported.")`. -/
def cqlValueErr (cql_op : String) : Except PyErr Json :=
  .error (.valueError ("The CQL filter type '" ++ cql_op ++ "' is not supported."))

/-- The operator dispatch of `cql_to_filter` for a string-valued `op` tag.
Python's `match cql_op:` over string literals is rendered as the equivalent
if-chain, one test per literal in source order (alternative patterns such
as `case "and" | "or":` become consecutive tests sharing an arm). -/
def cqlStepOp (rec : Json → Except PyErr Json) (cql_query : Json) (s : String) :
    Except PyErr Json :=
  if s = "not" then cqlArmNot rec cql_query
  else if s = "and" then cqlArmAndOr rec cql_query "and"
  else if s = "or" then cqlArmAndOr rec cql_query "or"
  else if s = "=" then cqlArmEq cql_query
  else if s = "<>" then cqlArmNeq cql_query
  else if s = "<" then
    .error (.notImplementedError "'>' and '<' filters are not supported yet")
  else if s = ">" then
    .error (.notImplementedError "'>' and '<' filters are not supported yet")
  else if s = "isNull" then cqlArmIsNull cql_query
  else if s = "<=" then cqlArmLe cql_query
  else if s = ">=" then cqlArmGe cql_query
  else if s = "like" then
    .error (.notImplementedError "'like' filter is not supported yet")
  else if s = "between" then
    .error (.notImplementedError "'between' filter is not supported yet")
  else if s = "in" then cqlArmIn cql_query
  else if s = "s_intersects" then cqlArmGeoShape cql_query "s_intersects"
  else if s = "s_within" then cqlArmGeoShape cql_query "s_within"
  else if s = "s_contains" then
    .error (.notImplementedError "'s_contains' and 's_disjoint' filters are not supported yet")
  else if s = "s_disjoint" then
    .error (.notImplementedError "'s_contains' and 's_disjoint' filters are not supported yet")
  else if s = "s_crosses" then cqlValueErr s
  else if s = "s_equals" then cqlValueErr s
  else if s = "s_overlaps" then cqlValueErr s
  else if s = "s_touches" then cqlValueErr s
  else if s = "a_equals" then cqlValueErr s
  else if s = "a_contains" then cqlValueErr s
  else if s = "a_contained_by" then cqlValueErr s
  else if s = "a_overlaps" then cqlValueErr s
  else if s = "casei" then cqlValueErr s
  else if s = "accenti" then cqlValueErr s
  else if s = "t_after" then
    .error (.notImplementedError
      "temporal comparisons supporting intervals and instants are not supported yet")
  else if s = "t_before" then
    .error (.notImplementedError
      "temporal comparisons supporting intervals and instants are not supported yet")
  else if s = "t_disjoint" then
    .error (.notImplementedError
      "temporal comparisons supporting intervals and instants are not supported yet")
  else if s = "t_equals" then
    .error (.notImplementedError
      "temporal comparisons supporting intervals and instants are not supported yet")
  else if s = "t_intersects" then
    .error (.notImplementedError
      "temporal comparisons supporting intervals and instants are not supported yet")
  else if s = "t_contains" then
    .error (.notImplementedError "temporal comparisons supporting intervals are not supported yet")
  else if s = "t_during" then
    .error (.notImplementedError "temporal comparisons supporting intervals are not supported yet")
  else if s = "t_finishedby" then
    .error (.notImplementedError "temporal comparisons supporting intervals are not supported yet")
  else if s = "t_finishes" then
    .error (.notImplementedError "temporal comparisons supporting intervals are not supported yet")
  else if s = "t_meets" then
    .error (.notImplementedError "temporal comparisons supporting intervals are not supported yet")
  else if s = "t_metby" then
    .error (.notImplementedError "temporal comparisons supporting intervals are not supported yet")
  else if s = "t_overlappedby" then
    .error (.notImplementedError "temporal comparisons supporting intervals are not supported yet")
  else if s = "t_overlaps" then
    .error (.notImplementedError "temporal comparisons supporting intervals are not supported yet")
  else if s = "t_startedby" then
    .error (.notImplementedError "temporal comparisons supporting intervals are not supported yet")
  else if s = "t_starts" then
    .error (.notImplementedError "temporal comparisons supporting intervals are not supported yet")
  else if s = "+" then cqlValueErr s
  else if s = "-" then cqlValueErr s
  else if s = "*" then cqlValueErr s
  else if s = "/" then cqlValueErr s
  else if s = "%" then cqlValueErr s
  else if s = "div" then cqlValueErr s
  else if s = "^" then cqlValueErr s
  else .error (.notImplementedError ("Unrecgonized operator: " ++ s))

/-- One unfolding of `database_logic.cql_to_filter`, with `rec` standing for
the recursive calls.  A non-string `op` value matches none of the string
patterns and falls to the catch-all `NotImplementedError`. -/
def cqlStep (rec : Json → Except PyErr Json) (cql_query : Json) : Except PyErr Json :=
  -- if "op" not in cql_query: return {}
  match pyContains cql_query (.str "op") with
  | .error e => .error e
  | .ok false => .ok (.obj [])
  | .ok true =>
    match pyGetItem cql_query (.str "op") with
    | .error e => .error e
    | .ok cql_op =>
      match cql_op with
      | .str s => cqlStepOp rec cql_query s
      | _ => .error (.notImplementedError ("Unrecgonized operator: " ++ jstr cql_op))

/-- `database_logic.cql_to_filter`, recursion bounded by explicit fuel (one
unit per nesting level; Python's recursion is bounded only by the
interpreter's stack).  `cql_to_filter (n+1) q = cqlStep (cql_to_filter n) q`
definitionally. -/
def cql_to_filter : Nat → Json → Except PyErr Json
  | 0, _ => .error .outOfFuel
  | fuel + 1, cql_query => cqlStep (cql_to_filter fuel) cql_query

-- Spec concrete scenario 1
example :
    cql_to_filter 1 (.obj [(.str "op", .str "="),
      (.str "args", .arr [.obj [(.str "property", .str "collection")], .str "cmip6"])]) =
    .ok (.obj [(.str "type", .str "match_any"),
               (.str "field_name", .str "collection"),
               (.str "values", .arr [.str "cmip6"])]) := by decide

-- Spec concrete scenario 2
example :
    cql_to_filter 1 (.obj [(.str "op", .str "isNull"),
      (.str "args", .arr [.obj [(.str "property", .str "foo")]])]) =
    .ok (.obj [(.str "type", .str "not"),
               (.str "filter", .obj [(.str "type", .str "exists"),
                                     (.str "field_name", .str "properties.foo")])]) := by decide

/-! ## Operator groups of the compiler's match, by the error they raise -/

/-- Operators the compiler rejects with `NotImplementedError` ("could be
supported later"): `<`, `>`, `like`, `between`, `s_contains`, `s_disjoint`
and the temporal operators. -/
def cqlTodoOps : List String :=
  ["<", ">", "like", "between", "s_contains", "s_disjoint",
   "t_after", "t_before", "t_disjoint", "t_equals", "t_intersects",
   "t_contains", "t_during", "t_finishedby", "t_finishes", "t_meets", "t_metby",
   "t_overlappedby", "t_overlaps", "t_startedby", "t_starts"]

/-- Operators the compiler rejects with `ValueError` (excluded on
backend-capability or cost grounds): the unsupported geo operators, the
array operators, `casei`/`accenti` and the arithmetic operators. -/
def cqlRejectedOps : List String :=
  ["s_crosses", "s_equals", "s_overlaps", "s_touches",
   "a_equals", "a_contains", "a_contained_by", "a_overlaps", "casei", "accenti",
   "+", "-", "*", "/", "%", "div", "^"]

/-- Every operator tag named by some arm of the compiler's match. -/
def cqlKnownOps : List String :=
  ["not", "and", "or", "=", "<>", "<", ">", "isNull", "<=", ">=",
   "like", "between", "in", "s_intersects", "s_within", "s_contains", "s_disjoint",
   "s_crosses", "s_equals", "s_overlaps", "s_touches",
   "a_equals", "a_contains", "a_contained_by", "a_overlaps", "casei", "accenti",
   "t_after", "t_before", "t_disjoint", "t_equals", "t_intersects",
   "t_contains", "t_during", "t_finishedby", "t_finishes", "t_meets", "t_metby",
   "t_overlappedby", "t_overlaps", "t_startedby", "t_starts",
   "+", "-", "*", "/", "%", "div", "^"]

/-- A CQL node carrying only an operator tag (the rejection arms raise
before ever touching `args`). -/
def opNode (s : String) : Json := .obj [(.str "op", .str s)]

/-- A CQL `not` node wrapping one argument. -/
def notNode (x : Json) : Json :=
  .obj [(.str "op", .str "not"), (.str "args", .arr [x])]

/-- The result is a raised `NotImplementedError`. -/
def isNotImplErr (r : Except PyErr Json) : Bool :=
  match r with
  | .error (.notImplementedError _) => true
  | _ => false

/-- The result is a raised `ValueError`. -/
def isValueErr (r : Except PyErr Json) : Bool :=
  match r with
  | .error (.valueError _) => true
  | _ => false

/-- On a node whose only binding is `"op" ↦ s`, one step of the compiler
reaches the operator dispatch for `s`. -/
theorem cqlStep_opNode (rec : Json → Except PyErr Json) (s : String) :
    cqlStep rec (opNode s) = cqlStepOp rec (opNode s) s := by
  simp [cqlStep, opNode, pyContains, pyGetItem, lookupJ]

/-- C3: the field-name translator returns `f` unchanged on the passthrough
set `{id, collection, geometry}`, prefixes `properties.` to every other
name, and is not idempotent outside the passthrough set: a second
application yields `properties.properties.` + f, different from
`properties.` + f. -/
theorem C3_field_translation (f : String) :
    (f = "id" ∨ f = "collection" ∨ f = "geometry" → cql_translate_fieldname f = f) ∧
    (¬(f = "id" ∨ f = "collection" ∨ f = "geometry") →
      cql_translate_fieldname f = "properties." ++ f ∧
      cql_translate_fieldname (cql_translate_fieldname f) = "properties.properties." ++ f ∧
      cql_translate_fieldname (cql_translate_fieldname f) ≠ cql_translate_fieldname f) := by
  constructor
  · intro h
    simp [cql_translate_fieldname, h]
  · intro h
    have h1 : cql_translate_fieldname f = "properties." ++ f := by
      simp [cql_translate_fieldname, h]
    have hpre : ¬("properties." ++ f = "id" ∨ "properties." ++ f = "collection" ∨
        "properties." ++ f = "geometry") := by
      rintro (hc | hc | hc) <;>
        [skip; skip; skip] <;>
        · have hlen := congrArg String.length hc
          rw [String.length_append] at hlen
          rw [show "properties.".length = 11 from rfl] at hlen
          first
            | rw [show "id".length = 2 from rfl] at hlen
            | rw [show "collection".length = 10 from rfl] at hlen
            | rw [show "geometry".length = 8 from rfl] at hlen
          omega
    have h2 : cql_translate_fieldname (cql_translate_fieldname f) =
        "properties.properties." ++ f := by
      rw [h1]
      have hstep : cql_translate_fieldname ("properties." ++ f) =
          "properties." ++ ("properties." ++ f) := by
        simp [cql_translate_fieldname, hpre]
      rw [hstep, ← String.append_assoc]
      exact congrArg (fun s => s ++ f) (by decide)
    refine ⟨h1, h2, ?_⟩
    rw [h2, h1]
    intro hc
    have hlen := congrArg String.length hc
    rw [String.length_append, String.length_append] at hlen
    rw [show "properties.properties.".length = 22 from rfl] at hlen
    rw [show "properties.".length = 11 from rfl] at hlen
    omega

/-- Witness for `C3_field_translation` at `f = "id"` and `f = "foo"`. -/
theorem C3_field_translation_witness :
    cql_translate_fieldname "id" = "id" ∧
    cql_translate_fieldname "foo" = "properties." ++ "foo" ∧
    cql_translate_fieldname (cql_translate_fieldname "foo") ≠ cql_translate_fieldname "foo" :=
  ⟨(C3_field_translation "id").1 (Or.inl rfl),
   ((C3_field_translation "foo").2 (by decide)).1,
   ((C3_field_translation "foo").2 (by decide)).2.2⟩

/-- C2 counterexample: an operator tag outside the known set does not get a
third, distinct error kind — the compiler raises `NotImplementedError` for
it, the same kind it raises for the "could be supported later" group
(here `like`), so two of the three claimed kinds coincide. -/
theorem C2_error_taxonomy_counterexample :
    cql_to_filter 1 (opNode "frobnicate") =
      .error (.notImplementedError "Unrecgonized operator: frobnicate") ∧
    cql_to_filter 1 (opNode "like") =
      .error (.notImplementedError "'like' filter is not supported yet") ∧
    isNotImplErr (cql_to_filter 1 (opNode "frobnicate")) =
      isNotImplErr (cql_to_filter 1 (opNode "like")) := by
  refine ⟨by decide, by decide, by decide⟩

/-- C2 (amended): the compiler distinguishes exactly two failure kinds:
`NotImplementedError` for every operator in the "could be supported later"
group, `ValueError` for every operator in the "excluded by design" group —
and every tag outside the known operator set raises `NotImplementedError`
again (with an "Unrecgonized operator" message), not a distinct third
kind. -/
theorem C2_error_taxonomy :
    (∀ s ∈ cqlTodoOps, isNotImplErr (cql_to_filter 1 (opNode s)) = true) ∧
    (∀ s ∈ cqlRejectedOps, isValueErr (cql_to_filter 1 (opNode s)) = true) ∧
    (∀ s, s ∉ cqlKnownOps →
      cql_to_filter 1 (opNode s) =
        .error (.notImplementedError ("Unrecgonized operator: " ++ s))) := by
  refine ⟨by decide, by decide, ?_⟩
  intro s hs
  show cqlStep (cql_to_filter 0) (opNode s) = _
  rw [cqlStep_opNode]
  simp_all [cqlStepOp, cqlKnownOps]

/-- Witness for `C2_error_taxonomy` at `like` (not-implemented group),
`casei` (rejected group) and the unknown tag `frob`. -/
theorem C2_error_taxonomy_witness :
    isNotImplErr (cql_to_filter 1 (opNode "like")) = true ∧
    isValueErr (cql_to_filter 1 (opNode "casei")) = true ∧
    cql_to_filter 1 (opNode "frob") =
      .error (.notImplementedError ("Unrecgonized operator: " ++ "frob")) :=
  ⟨C2_error_taxonomy.1 "like" (by decide),
   C2_error_taxonomy.2.1 "casei" (by decide),
   C2_error_taxonomy.2.2 "frob" (by decide)⟩


/-! ## Shape invariant of compiled filters, for the double-negation law -/

/-- Every filter the compiler can return is either the empty no-op filter,
a `not` node (with exactly the two keys the compiler emits, whose inner
filter carries a string `type` other than `"not"`), or a node whose `type`
is a string other than `"not"`. -/
abbrev JInv (r : Json) : Prop :=
  r = .obj [] ∨
  (∃ f tf, r = .obj [(.str "type", .str "not"), (.str "filter", f)] ∧
    pyGetItem f (.str "type") = .ok (.str tf) ∧ tf ≠ "not") ∨
  (∃ tv, pyGetItem r (.str "type") = .ok (.str tv) ∧ tv ≠ "not")

theorem cqlArmEq_inv (q r : Json) (h : cqlArmEq q = .ok r) : JInv r := by
  unfold cqlArmEq at h
  repeat' split at h
  all_goals try exact Except.noConfusion h
  injection h with h
  subst h
  exact Or.inr (Or.inr ⟨"match_any", by simp [pyGetItem, lookupJ], by decide⟩)

theorem cqlArmNeq_inv (q r : Json) (h : cqlArmNeq q = .ok r) : JInv r := by
  unfold cqlArmNeq at h
  repeat' split at h
  all_goals try exact Except.noConfusion h
  injection h with h
  subst h
  exact Or.inr (Or.inl ⟨_, "match_any", rfl, by simp [pyGetItem, lookupJ], by decide⟩)

theorem cqlArmIsNull_inv (q r : Json) (h : cqlArmIsNull q = .ok r) : JInv r := by
  unfold cqlArmIsNull at h
  repeat' split at h
  all_goals try exact Except.noConfusion h
  injection h with h
  subst h
  exact Or.inr (Or.inl ⟨_, "exists", rfl, by simp [pyGetItem, lookupJ], by decide⟩)

theorem cqlArmLe_inv (q r : Json) (h : cqlArmLe q = .ok r) : JInv r := by
  unfold cqlArmLe at h
  repeat' split at h
  all_goals try exact Except.noConfusion h
  injection h with h
  subst h
  exact Or.inr (Or.inr ⟨"range", by simp [pyGetItem, lookupJ], by decide⟩)

theorem cqlArmGe_inv (q r : Json) (h : cqlArmGe q = .ok r) : JInv r := by
  unfold cqlArmGe at h
  repeat' split at h
  all_goals try exact Except.noConfusion h
  injection h with h
  subst h
  exact Or.inr (Or.inr ⟨"range", by simp [pyGetItem, lookupJ], by decide⟩)

theorem cqlArmIn_inv (q r : Json) (h : cqlArmIn q = .ok r) : JInv r := by
  unfold cqlArmIn at h
  repeat' split at h
  all_goals try exact Except.noConfusion h
  injection h with h
  subst h
  exact Or.inr (Or.inr ⟨"match_any", by simp [pyGetItem, lookupJ], by decide⟩)

theorem cqlArmGeoShape_inv (q : Json) (op : String) (r : Json)
    (h : cqlArmGeoShape q op = .ok r) : JInv r := by
  unfold cqlArmGeoShape at h
  repeat' split at h
  all_goals try exact Except.noConfusion h
  injection h with h
  subst h
  exact Or.inr (Or.inr ⟨"geo_shape", by simp [pyGetItem, lookupJ], by decide⟩)

theorem cqlArmAndOr_inv (rec : Json → Except PyErr Json) (q : Json) (op : String)
    (hop : op ≠ "not") (r : Json) (h : cqlArmAndOr rec q op = .ok r) : JInv r := by
  unfold cqlArmAndOr at h
  repeat' split at h
  all_goals try exact Except.noConfusion h
  injection h with h
  subst h
  exact Or.inr (Or.inr ⟨op, by simp [pyGetItem, lookupJ], hop⟩)

theorem cqlArmNot_inv (rec : Json → Except PyErr Json)
    (hrec : ∀ q r, rec q = .ok r → JInv r) (q r : Json)
    (h : cqlArmNot rec q = .ok r) : JInv r := by
  unfold cqlArmNot at h
  split at h
  · exact Except.noConfusion h
  · rename_i args hargs
    split at h
    · exact Except.noConfusion h
    · rename_i arg0 harg0
      split at h
      · exact Except.noConfusion h
      · rename_i inner hinner
        split at h
        · exact Except.noConfusion h
        · rename_i ty hty
          split at h
          · -- double-negation elimination: return the inner filter's filter
            rename_i htyeq
            rcases hrec arg0 inner hinner with h0 | ⟨f, tf, hsh, hf, hfn⟩ | ⟨tv, htv, hvn⟩
            · subst h0
              simp [pyGetItem, lookupJ] at hty
            · subst hsh
              simp only [pyGetItem, lookupJ] at h
              simp at h
              subst h
              exact Or.inr (Or.inr ⟨tf, hf, hfn⟩)
            · rw [hty] at htv
              injection htv with htv
              subst htyeq
              exact absurd (by injection htv with hc; exact hc.symm : tv = "not") hvn
          · -- wrap in a fresh `not` node
            rename_i htyne
            injection h with h
            subst h
            rcases hrec arg0 inner hinner with h0 | ⟨f, tf, hsh, hf, hfn⟩ | ⟨tv, htv, hvn⟩
            · subst h0
              simp [pyGetItem, lookupJ] at hty
            · subst hsh
              simp [pyGetItem, lookupJ] at hty
              exact absurd hty.symm htyne
            · exact Or.inr (Or.inl ⟨inner, tv, rfl, htv, hvn⟩)

theorem cqlStepOp_inv (rec : Json → Except PyErr Json)
    (hrec : ∀ q r, rec q = .ok r → JInv r) (q : Json) (s : String) (r : Json)
    (h : cqlStepOp rec q s = .ok r) : JInv r := by
  delta cqlStepOp at h
  by_cases hc0 : s = "not"
  · rw [if_pos hc0] at h
    exact cqlArmNot_inv rec hrec q r h
  rw [if_neg hc0] at h
  by_cases hc1 : s = "and"
  · rw [if_pos hc1] at h
    exact cqlArmAndOr_inv rec q "and" (by decide) r h
  rw [if_neg hc1] at h
  by_cases hc2 : s = "or"
  · rw [if_pos hc2] at h
    exact cqlArmAndOr_inv rec q "or" (by decide) r h
  rw [if_neg hc2] at h
  by_cases hc3 : s = "="
  · rw [if_pos hc3] at h
    exact cqlArmEq_inv q r h
  rw [if_neg hc3] at h
  by_cases hc4 : s = "<>"
  · rw [if_pos hc4] at h
    exact cqlArmNeq_inv q r h
  rw [if_neg hc4] at h
  by_cases hc5 : s = "<"
  · rw [if_pos hc5] at h
    exact Except.noConfusion h
  rw [if_neg hc5] at h
  by_cases hc6 : s = ">"
  · rw [if_pos hc6] at h
    exact Except.noConfusion h
  rw [if_neg hc6] at h
  by_cases hc7 : s = "isNull"
  · rw [if_pos hc7] at h
    exact cqlArmIsNull_inv q r h
  rw [if_neg hc7] at h
  by_cases hc8 : s = "<="
  · rw [if_pos hc8] at h
    exact cqlArmLe_inv q r h
  rw [if_neg hc8] at h
  by_cases hc9 : s = ">="
  · rw [if_pos hc9] at h
    exact cqlArmGe_inv q r h
  rw [if_neg hc9] at h
  by_cases hc10 : s = "like"
  · rw [if_pos hc10] at h
    exact Except.noConfusion h
  rw [if_neg hc10] at h
  by_cases hc11 : s = "between"
  · rw [if_pos hc11] at h
    exact Except.noConfusion h
  rw [if_neg hc11] at h
  by_cases hc12 : s = "in"
  · rw [if_pos hc12] at h
    exact cqlArmIn_inv q r h
  rw [if_neg hc12] at h
  by_cases hc13 : s = "s_intersects"
  · rw [if_pos hc13] at h
    exact cqlArmGeoShape_inv q "s_intersects" r h
  rw [if_neg hc13] at h
  by_cases hc14 : s = "s_within"
  · rw [if_pos hc14] at h
    exact cqlArmGeoShape_inv q "s_within" r h
  rw [if_neg hc14] at h
  by_cases hc15 : s = "s_contains"
  · rw [if_pos hc15] at h
    exact Except.noConfusion h
  rw [if_neg hc15] at h
  by_cases hc16 : s = "s_disjoint"
  · rw [if_pos hc16] at h
    exact Except.noConfusion h
  rw [if_neg hc16] at h
  by_cases hc17 : s = "s_crosses"
  · rw [if_pos hc17] at h
    exact absurd h (by simp [cqlValueErr])
  rw [if_neg hc17] at h
  by_cases hc18 : s = "s_equals"
  · rw [if_pos hc18] at h
    exact absurd h (by simp [cqlValueErr])
  rw [if_neg hc18] at h
  by_cases hc19 : s = "s_overlaps"
  · rw [if_pos hc19] at h
    exact absurd h (by simp [cqlValueErr])
  rw [if_neg hc19] at h
  by_cases hc20 : s = "s_touches"
  · rw [if_pos hc20] at h
    exact absurd h (by simp [cqlValueErr])
  rw [if_neg hc20] at h
  by_cases hc21 : s = "a_equals"
  · rw [if_pos hc21] at h
    exact absurd h (by simp [cqlValueErr])
  rw [if_neg hc21] at h
  by_cases hc22 : s = "a_contains"
  · rw [if_pos hc22] at h
    exact absurd h (by simp [cqlValueErr])
  rw [if_neg hc22] at h
  by_cases hc23 : s = "a_contained_by"
  · rw [if_pos hc23] at h
    exact absurd h (by simp [cqlValueErr])
  rw [if_neg hc23] at h
  by_cases hc24 : s = "a_overlaps"
  · rw [if_pos hc24] at h
    exact absurd h (by simp [cqlValueErr])
  rw [if_neg hc24] at h
  by_cases hc25 : s = "casei"
  · rw [if_pos hc25] at h
    exact absurd h (by simp [cqlValueErr])
  rw [if_neg hc25] at h
  by_cases hc26 : s = "accenti"
  · rw [if_pos hc26] at h
    exact absurd h (by simp [cqlValueErr])
  rw [if_neg hc26] at h
  by_cases hc27 : s = "t_after"
  · rw [if_pos hc27] at h
    exact Except.noConfusion h
  rw [if_neg hc27] at h
  by_cases hc28 : s = "t_before"
  · rw [if_pos hc28] at h
    exact Except.noConfusion h
  rw [if_neg hc28] at h
  by_cases hc29 : s = "t_disjoint"
  · rw [if_pos hc29] at h
    exact Except.noConfusion h
  rw [if_neg hc29] at h
  by_cases hc30 : s = "t_equals"
  · rw [if_pos hc30] at h
    exact Except.noConfusion h
  rw [if_neg hc30] at h
  by_cases hc31 : s = "t_intersects"
  · rw [if_pos hc31] at h
    exact Except.noConfusion h
  rw [if_neg hc31] at h
  by_cases hc32 : s = "t_contains"
  · rw [if_pos hc32] at h
    exact Except.noConfusion h
  rw [if_neg hc32] at h
  by_cases hc33 : s = "t_during"
  · rw [if_pos hc33] at h
    exact Except.noConfusion h
  rw [if_neg hc33] at h
  by_cases hc34 : s = "t_finishedby"
  · rw [if_pos hc34] at h
    exact Except.noConfusion h
  rw [if_neg hc34] at h
  by_cases hc35 : s = "t_finishes"
  · rw [if_pos hc35] at h
    exact Except.noConfusion h
  rw [if_neg hc35] at h
  by_cases hc36 : s = "t_meets"
  · rw [if_pos hc36] at h
    exact Except.noConfusion h
  rw [if_neg hc36] at h
  by_cases hc37 : s = "t_metby"
  · rw [if_pos hc37] at h
    exact Except.noConfusion h
  rw [if_neg hc37] at h
  by_cases hc38 : s = "t_overlappedby"
  · rw [if_pos hc38] at h
    exact Except.noConfusion h
  rw [if_neg hc38] at h
  by_cases hc39 : s = "t_overlaps"
  · rw [if_pos hc39] at h
    exact Except.noConfusion h
  rw [if_neg hc39] at h
  by_cases hc40 : s = "t_startedby"
  · rw [if_pos hc40] at h
    exact Except.noConfusion h
  rw [if_neg hc40] at h
  by_cases hc41 : s = "t_starts"
  · rw [if_pos hc41] at h
    exact Except.noConfusion h
  rw [if_neg hc41] at h
  by_cases hc42 : s = "+"
  · rw [if_pos hc42] at h
    exact absurd h (by simp [cqlValueErr])
  rw [if_neg hc42] at h
  by_cases hc43 : s = "-"
  · rw [if_pos hc43] at h
    exact absurd h (by simp [cqlValueErr])
  rw [if_neg hc43] at h
  by_cases hc44 : s = "*"
  · rw [if_pos hc44] at h
    exact absurd h (by simp [cqlValueErr])
  rw [if_neg hc44] at h
  by_cases hc45 : s = "/"
  · rw [if_pos hc45] at h
    exact absurd h (by simp [cqlValueErr])
  rw [if_neg hc45] at h
  by_cases hc46 : s = "%"
  · rw [if_pos hc46] at h
    exact absurd h (by simp [cqlValueErr])
  rw [if_neg hc46] at h
  by_cases hc47 : s = "div"
  · rw [if_pos hc47] at h
    exact absurd h (by simp [cqlValueErr])
  rw [if_neg hc47] at h
  by_cases hc48 : s = "^"
  · rw [if_pos hc48] at h
    exact absurd h (by simp [cqlValueErr])
  rw [if_neg hc48] at h
  exact Except.noConfusion h

theorem cqlStep_inv (rec : Json → Except PyErr Json)
    (hrec : ∀ q r, rec q = .ok r → JInv r) (q r : Json)
    (h : cqlStep rec q = .ok r) : JInv r := by
  unfold cqlStep at h
  split at h
  · exact Except.noConfusion h
  · injection h with h
    subst h
    exact Or.inl rfl
  · split at h
    · exact Except.noConfusion h
    · split at h
      · exact cqlStepOp_inv rec hrec q _ r h
      · exact Except.noConfusion h

/-- Shape invariant for every successful compilation, at any fuel. -/
theorem cql_to_filter_inv :
    ∀ (fuel : Nat) (q r : Json), cql_to_filter fuel q = .ok r → JInv r := by
  intro fuel
  induction fuel with
  | zero =>
      intro q r h
      simp [cql_to_filter] at h
  | succ n ih =>
      intro q r h
      exact cqlStep_inv (cql_to_filter n) ih q r h

/-- On a `not` node, one step of the compiler reaches the `not` arm. -/
theorem cqlStep_notNode (rec : Json → Except PyErr Json) (x : Json) :
    cqlStep rec (notNode x) = cqlArmNot rec (notNode x) := by
  simp [cqlStep, notNode, pyContains, pyGetItem, lookupJ, cqlStepOp]

theorem notNode_args (x : Json) :
    pyGetItem (notNode x) (.str "args") = .ok (.arr [x]) := by
  simp [notNode, pyGetItem, lookupJ]

theorem pyGetItem_arr0 (x : Json) : pyGetItem (.arr [x]) (.num 0) = .ok x := by
  simp [pyGetItem]

theorem pyGetItem_notObj_type (f : Json) :
    pyGetItem (.obj [(.str "type", .str "not"), (.str "filter", f)]) (.str "type") =
      .ok (.str "not") := by
  simp [pyGetItem, lookupJ]

theorem pyGetItem_notObj_filter (f : Json) :
    pyGetItem (.obj [(.str "type", .str "not"), (.str "filter", f)]) (.str "filter") =
      .ok f := by
  simp [pyGetItem, lookupJ]

/-- C1 (amended): for every compilable filter expression X whose compiled
result is not the empty no-op filter, compiling `not(not(X))` yields exactly
the compiled form of X.  (Fuel bookkeeping: the two `not` wrappers consume
two units.) -/
theorem C1_double_negation (fuel : Nat) (X cX : Json)
    (hX : cql_to_filter fuel X = .ok cX) (hne : cX ≠ .obj []) :
    cql_to_filter (fuel + 2) (notNode (notNode X)) = .ok cX := by
  rcases cql_to_filter_inv fuel X cX hX with h0 | ⟨f, tf, hsh, hf, hfn⟩ | ⟨tv, htv, hvn⟩
  · exact absurd h0 hne
  · -- cX is itself a `not` node: compile(not X) strips it to f, and the
    -- outer `not` wraps f again, rebuilding cX
    have iInner : cql_to_filter (fuel + 1) (notNode X) = .ok f := by
      show cqlStep (cql_to_filter fuel) (notNode X) = .ok f
      rw [cqlStep_notNode]
      unfold cqlArmNot
      rw [notNode_args]
      simp only [pyGetItem_arr0, hX, hsh, pyGetItem_notObj_type, pyGetItem_notObj_filter]
      simp
    show cqlStep (cql_to_filter (fuel + 1)) (notNode (notNode X)) = .ok cX
    rw [cqlStep_notNode]
    unfold cqlArmNot
    rw [notNode_args]
    simp only [pyGetItem_arr0, iInner, hf]
    rw [if_neg (by intro hc; exact hfn (by injection hc))]
    rw [hsh]
  · -- cX has a non-`not` type: compile(not X) wraps it, and the outer `not`
    -- unwraps again
    have iInner : cql_to_filter (fuel + 1) (notNode X) =
        .ok (.obj [(.str "type", .str "not"), (.str "filter", cX)]) := by
      show cqlStep (cql_to_filter fuel) (notNode X) = _
      rw [cqlStep_notNode]
      unfold cqlArmNot
      rw [notNode_args]
      simp only [pyGetItem_arr0, hX, htv]
      rw [if_neg (by intro hc; exact hvn (by injection hc))]
    show cqlStep (cql_to_filter (fuel + 1)) (notNode (notNode X)) = .ok cX
    rw [cqlStep_notNode]
    unfold cqlArmNot
    rw [notNode_args]
    simp only [pyGetItem_arr0, iInner, pyGetItem_notObj_type, pyGetItem_notObj_filter]
    simp

/-- C1 counterexample: the op-less node `{}` is compilable (the compiler
returns the empty no-op filter for it, without error), yet compiling
`not(not({}))` raises `KeyError: 'type'` instead of returning `{}`,
because the `not` arm reads `inner["type"]` on the empty inner filter. -/
theorem C1_double_negation_counterexample :
    cql_to_filter 1 (.obj []) = .ok (.obj []) ∧
    cql_to_filter 3 (notNode (notNode (.obj []))) = .error (.keyError (.str "type")) := by
  exact ⟨by decide, by decide⟩

/-- Witness for `C1_double_negation` at the spec's concrete scenario 1
expression (`collection = "cmip6"`). -/
theorem C1_double_negation_witness :
    cql_to_filter 3 (notNode (notNode (.obj [(.str "op", .str "="),
      (.str "args", .arr [.obj [(.str "property", .str "collection")], .str "cmip6"])]))) =
    .ok (.obj [(.str "type", .str "match_any"),
               (.str "field_name", .str "collection"),
               (.str "values", .arr [.str "cmip6"])]) :=
  C1_double_negation 1 _ _ (by decide) (by decide)

/-! ## The backend-document normalizer (`convert.search_doc_to_stac_item`)

The Python function shallow-copies the entry content, then walks the shared
asset list, popping each asset's `name` binding in place and keying the new
assets dict by that value; `alternate` lists are promoted the same way one
level deep and rebound on the (shared) asset record.  Because the asset
records are shared between the input document and the output, the input
document is mutated.  The embedding therefore returns a pair: the produced
item and the post-call state of the input document (documents from JSON
have no internal aliasing, which the reconstruction assumes). -/

/-- Python `d[k] = v` on a JSON value known to be a dict (identity on other
shapes, which the call sites never reach). -/
def dictSetJ (d k v : Json) : Json :=
  match d with
  | .obj fs => .obj (dictSetF fs k v)
  | other => other

/-- Python `l[i] = v` on a JSON value known to be a list. -/
def listSetJ (l : Json) (i : Nat) (v : Json) : Json :=
  match l with
  | .arr xs => .arr (xs.set i v)
  | other => other

/-- The inner `for alternate in value:` loop building `temp`: each record
that contains `name` is stored in `temp` under its name value and has the
`name` binding popped (the stored reference sees the popped state);
records without `name` are skipped. -/
def altLoop : List Json → List (Json × Json) → Except PyErr Json
  | [], temp => .ok (.obj temp)
  | alt :: rest, temp =>
      match pyContains alt (.str "name") with
      | .error e => .error e
      | .ok false => altLoop rest temp
      | .ok true =>
          match pyGetItem alt (.str "name") with
          | .error e => .error e
          | .ok nameV =>
              match alt with
              | .obj afields =>
                  altLoop rest (dictSetF temp nameV (.obj (dictPopF afields (.str "name"))))
              | _ => .error .typeError

/-- `temp = {}; for alternate in value: ...` -/
def promoteAlternates (value : Json) : Except PyErr Json :=
  match pyIter value with
  | .error e => .error e
  | .ok alts => altLoop alts []

/-- The inner `for key in list(asset):` loop, threading the asset's current
state and the optional `name` value under which the (final state of the)
asset is stored in `dict_assets`. -/
def assetKeyLoop : List Json → Json → Option Json → Except PyErr (Json × Option Json)
  | [], a, nm => .ok (a, nm)
  | k :: rest, a, nm =>
      -- value = asset[key]
      match pyGetItem a k with
      | .error e => .error e
      | .ok value =>
          -- if key == "name": asset.pop(key); dict_assets[value] = asset
          let step1 : Except PyErr (Json × Option Json) :=
            if k = .str "name" then
              match a with
              | .obj afields => .ok (.obj (dictPopF afields (.str "name")), some value)
              | _ => .error .typeError
            else .ok (a, nm)
          match step1 with
          | .error e => .error e
          | .ok (a1, nm1) =>
              -- if key == "alternate": promote and rebind asset["alternate"]
              if k = .str "alternate" then
                match promoteAlternates value with
                | .error e => .error e
                | .ok temp =>
                    match a1 with
                    | .obj af1 =>
                        assetKeyLoop rest (.obj (dictSetF af1 (.str "alternate") temp)) nm1
                    | _ => .error .typeError
              else assetKeyLoop rest a1 nm1

/-- Process one asset: capture `list(asset)` and run the key loop. -/
def processAsset (asset : Json) : Except PyErr (Json × Option Json) :=
  match pyIter asset with
  | .error e => .error e
  | .ok keys => assetKeyLoop keys asset none

/-- The outer `for asset in list_assets:` loop, returning the final states
of the asset records (still shared with the input document) and the
accumulated `dict_assets`. -/
def assetsLoop : List Json → List Json → List (Json × Json) →
    Except PyErr (List Json × List (Json × Json))
  | [], done, dict => .ok (done, dict)
  | a :: rest, done, dict =>
      match processAsset a with
      | .error e => .error e
      | .ok (a', nmOpt) =>
          let dict' := match nmOpt with
            | some nv => dictSetF dict nv a'
            | none => dict
          assetsLoop rest (done ++ [a']) dict'

/-- `convert.search_doc_to_stac_item`.  Returns `(item, post)`: the
produced canonical item and the post-call state of the input document. -/
def search_doc_to_stac_item (search_doc : Json) : Except PyErr (Json × Json) :=
  match pyGetItem search_doc (.str "entries") with
  | .error e => .error e
  | .ok entries =>
    match pyGetItem entries (.num 0) with
    | .error e => .error e
    | .ok entry0 =>
      match pyGetItem entry0 (.str "content") with
      | .error e => .error e
      | .ok content0 =>
        match content0 with
        | .obj cfields =>
            -- content = dict(search_doc["entries"][0]["content"])
            match lookupJ (.str "assets") cfields with
            | none => .error (.keyError (.str "assets"))
            | some list_assets =>
                match pyIter list_assets with
                | .error e => .error e
                | .ok assets0 =>
                    match assetsLoop assets0 [] [] with
                    | .error e => .error e
                    | .ok (assets1, dictAssets) =>
                        -- content["assets"] = dict_assets (on the copy)
                        let item := .obj (dictSetF cfields (.str "assets") (.obj dictAssets))
                        -- the shared asset list's records were mutated in place
                        let listAssets' := match list_assets with
                          | .arr _ => .arr assets1
                          | other => other
                        let content0' := dictSetJ content0 (.str "assets") listAssets'
                        let entry0' := dictSetJ entry0 (.str "content") content0'
                        let entries' := listSetJ entries 0 entry0'
                        .ok (item, dictSetJ search_doc (.str "entries") entries')
        | _ => .error .typeError

/-- A backend document with a single entry wrapping the given content. -/
def mkSearchDoc (cfields : List (Json × Json)) : Json :=
  .obj [(.str "entries", .arr [.obj [(.str "content", .obj cfields)]])]

/-- A list-form asset record: a `name` binding followed by its other
fields. -/
def mkAsset (n : Json) (r : List (Json × Json)) : Json :=
  .obj ((.str "name", n) :: r)

-- Spec concrete scenario 3: assets [{name:"data", href:"x"}, {name:"meta", href:"y"}]
-- normalize to {"data": {href:"x"}, "meta": {href:"y"}}
example :
    search_doc_to_stac_item (mkSearchDoc
      [(.str "assets", .arr [mkAsset (.str "data") [(.str "href", .str "x")],
                             mkAsset (.str "meta") [(.str "href", .str "y")]])]) =
    .ok (.obj [(.str "assets",
                .obj [(.str "data", .obj [(.str "href", .str "x")]),
                      (.str "meta", .obj [(.str "href", .str "y")])])],
         mkSearchDoc [(.str "assets", .arr [.obj [(.str "href", .str "x")],
                                            .obj [(.str "href", .str "y")]])]) := by decide

/-! ## Lemmas about the asset loops -/

theorem lookupJ_mem (k : Json) (fields : List (Json × Json))
    (h : k ∈ fields.map Prod.fst) : ∃ v, lookupJ k fields = some v := by
  induction fields with
  | nil => simp at h
  | cons p rest ih =>
      by_cases hk : p.1 = k
      · exact ⟨p.2, by simp [lookupJ, hk]⟩
      · simp only [List.map_cons, List.mem_cons] at h
        rcases h with h | h
        · exact absurd h.symm hk
        · rcases ih h with ⟨v, hv⟩
          exact ⟨v, by simp [lookupJ, hk, hv]⟩

theorem assetKeyLoop_noop (keys : List Json) (fields : List (Json × Json)) (nm : Option Json)
    (hsub : ∀ k ∈ keys, k ∈ fields.map Prod.fst)
    (hkn : (Json.str "name") ∉ keys) (hka : (Json.str "alternate") ∉ keys) :
    assetKeyLoop keys (.obj fields) nm = .ok (.obj fields, nm) := by
  induction keys with
  | nil => rfl
  | cons k rest ih =>
      rcases lookupJ_mem k fields (hsub k (by simp)) with ⟨v, hv⟩
      have hkn' : k ≠ .str "name" := by rintro rfl; exact hkn (by simp)
      have hka' : k ≠ .str "alternate" := by rintro rfl; exact hka (by simp)
      simp only [assetKeyLoop, pyGetItem, hv, if_neg hkn', if_neg hka']
      exact ih (fun k' h' => hsub k' (by simp [h']))
        (fun h' => hkn (by simp [h'])) (fun h' => hka (by simp [h']))

theorem processAsset_mkAsset (n : Json) (r : List (Json × Json))
    (hname : (Json.str "name") ∉ r.map Prod.fst)
    (halt : (Json.str "alternate") ∉ r.map Prod.fst) :
    processAsset (mkAsset n r) = .ok (.obj r, some n) := by
  unfold processAsset mkAsset
  simp only [pyIter, List.map_cons]
  have h1 : assetKeyLoop (.str "name" :: r.map Prod.fst) (.obj ((.str "name", n) :: r)) none
      = assetKeyLoop (r.map Prod.fst) (.obj r) (some n) := by
    simp [assetKeyLoop, pyGetItem, lookupJ, dictPopF]
  rw [h1]
  exact assetKeyLoop_noop _ r (some n) (fun k h => h) hname halt

theorem lookupJ_dictSetF (d : List (Json × Json)) (k k' v : Json) :
    lookupJ k' (dictSetF d k v) = if k = k' then some v else lookupJ k' d := by
  induction d with
  | nil => simp [dictSetF, lookupJ]
  | cons p rest ih =>
      obtain ⟨a, b⟩ := p
      by_cases h1 : a = k
      · subst h1
        by_cases h2 : a = k'
        · subst h2; simp [dictSetF, lookupJ]
        · simp [dictSetF, lookupJ, h2]
      · by_cases h3 : a = k'
        · subst h3
          have hk : ¬(k = a) := fun hc => h1 hc.symm
          simp [dictSetF, lookupJ, h1, hk]
        · simp [dictSetF, lookupJ, h1, h3, ih]

theorem dictSetF_fresh (d : List (Json × Json)) (k v : Json)
    (h : lookupJ k d = none) : dictSetF d k v = d ++ [(k, v)] := by
  induction d with
  | nil => rfl
  | cons p rest ih =>
      obtain ⟨a, b⟩ := p
      by_cases h1 : a = k
      · simp [lookupJ, h1] at h
      · have h' : lookupJ k rest = none := by simpa [lookupJ, h1] using h
        simp [dictSetF, h1, ih h']

theorem lookupJ_append (k : Json) (d1 d2 : List (Json × Json)) :
    lookupJ k (d1 ++ d2) =
      match lookupJ k d1 with
      | some v => some v
      | none => lookupJ k d2 := by
  induction d1 with
  | nil => simp [lookupJ]
  | cons p rest ih =>
      obtain ⟨a, b⟩ := p
      by_cases h1 : a = k
      · simp [lookupJ, h1]
      · simp [lookupJ, h1, ih]

theorem assetsLoop_spec (pairs : List (Json × List (Json × Json)))
    (hshape : ∀ p ∈ pairs, (Json.str "name") ∉ p.2.map Prod.fst ∧
        (Json.str "alternate") ∉ p.2.map Prod.fst) :
    ∀ done dict,
      assetsLoop (pairs.map (fun p => mkAsset p.1 p.2)) done dict =
        .ok (done ++ pairs.map (fun p => Json.obj p.2),
             List.foldl (fun d p => dictSetF d p.1 (Json.obj p.2)) dict pairs) := by
  revert hshape
  induction pairs with
  | nil => intro _ done dict; simp [assetsLoop]
  | cons p rest ih =>
      intro hshape done dict
      obtain ⟨hn, ha⟩ := hshape p (by simp)
      simp only [List.map_cons, assetsLoop, processAsset_mkAsset p.1 p.2 hn ha]
      rw [ih (fun q hq => hshape q (by simp [hq])) (done ++ [Json.obj p.2])
        (dictSetF dict p.1 (Json.obj p.2))]
      simp

theorem foldl_dictSetF_map (pairs : List (Json × List (Json × Json))) :
    ∀ dict, (∀ p ∈ pairs, lookupJ p.1 dict = none) → (pairs.map Prod.fst).Nodup →
    List.foldl (fun d p => dictSetF d p.1 (Json.obj p.2)) dict pairs =
      dict ++ pairs.map (fun p => (p.1, Json.obj p.2)) := by
  induction pairs with
  | nil => intro dict _ _; simp
  | cons p rest ih =>
      intro dict hfresh hnodup
      simp only [List.map_cons, List.nodup_cons] at hnodup
      simp only [List.foldl_cons]
      rw [dictSetF_fresh dict p.1 _ (hfresh p (by simp))]
      rw [ih (dict ++ [(p.1, Json.obj p.2)]) ?_ hnodup.2]
      · simp
      · intro q hq
        rw [lookupJ_append]
        rw [hfresh q (by simp [hq])]
        have hne : ¬(p.1 = q.1) := by
          intro hc
          exact hnodup.1 (hc ▸ List.mem_map_of_mem Prod.fst hq)
        simp [lookupJ, hne]

theorem lookupJ_foldl (pairs : List (Json × List (Json × Json))) :
    ∀ (dict : List (Json × Json)) (k : Json),
    lookupJ k (List.foldl (fun d p => dictSetF d p.1 (Json.obj p.2)) dict pairs) =
      match pairs.reverse.find? (fun p => decide (p.1 = k)) with
      | some p => some (Json.obj p.2)
      | none => lookupJ k dict := by
  induction pairs with
  | nil => intro dict k; simp
  | cons p rest ih =>
      intro dict k
      simp only [List.foldl_cons, ih, List.reverse_cons, List.find?_append]
      cases hfind : rest.reverse.find? (fun q => decide (q.1 = k)) with
      | some q => simp
      | none =>
          simp only [Option.none_or]
          rw [lookupJ_dictSetF]
          by_cases hk : p.1 = k
          · simp [List.find?, hk]
          · simp [List.find?, hk]

/-- Full behaviour of the normalizer on a document whose assets are
list-form records (each `name`-keyed, with no further `name`/`alternate`
bindings): the item rebinds `assets` to the accumulated dict, and the
post-call document has each asset record replaced by its name-stripped
final state. -/
theorem search_doc_spec (pairs : List (Json × List (Json × Json)))
    (cfields : List (Json × Json))
    (hassets : lookupJ (.str "assets") cfields =
      some (.arr (pairs.map (fun p => mkAsset p.1 p.2))))
    (hshape : ∀ p ∈ pairs, (Json.str "name") ∉ p.2.map Prod.fst ∧
        (Json.str "alternate") ∉ p.2.map Prod.fst) :
    search_doc_to_stac_item (mkSearchDoc cfields) =
      .ok (.obj (dictSetF cfields (.str "assets")
             (.obj (List.foldl (fun d p => dictSetF d p.1 (Json.obj p.2)) [] pairs))),
           mkSearchDoc (dictSetF cfields (.str "assets")
             (.arr (pairs.map (fun p => Json.obj p.2))))) := by
  simp [search_doc_to_stac_item, mkSearchDoc, pyGetItem, lookupJ, pyIter,
    dictSetJ, listSetJ, hassets, assetsLoop_spec pairs hshape, dictSetF]

/-- C6 counterexample: normalization mutates the original document.  After
normalizing a document with one asset `{name:"data", href:"x"}`, the
original document's asset record has lost its `name` binding — the
post-call state differs from the input. -/
theorem C6_no_mutation_counterexample :
    search_doc_to_stac_item (mkSearchDoc
        [(.str "assets", .arr [mkAsset (.str "data") [(.str "href", .str "x")]])]) =
      .ok (.obj [(.str "assets", .obj [(.str "data", .obj [(.str "href", .str "x")])])],
           mkSearchDoc [(.str "assets", .arr [.obj [(.str "href", .str "x")]])]) ∧
    mkSearchDoc [(.str "assets", .arr [.obj [(.str "href", .str "x")]])] ≠
      mkSearchDoc [(.str "assets", .arr [mkAsset (.str "data") [(.str "href", .str "x")]])] := by
  exact ⟨by decide, by decide⟩

/-- C6 (amended): normalization does mutate the input document: the asset
records, shared between the input and the output, are stripped of their
`name` bindings in place, so after the call the original document holds the
name-stripped records; all fields outside the asset records are unchanged. -/
theorem C6_normalization_mutates (pairs : List (Json × List (Json × Json)))
    (cfields : List (Json × Json))
    (hassets : lookupJ (.str "assets") cfields =
      some (.arr (pairs.map (fun p => mkAsset p.1 p.2))))
    (hshape : ∀ p ∈ pairs, (Json.str "name") ∉ p.2.map Prod.fst ∧
        (Json.str "alternate") ∉ p.2.map Prod.fst) :
    ∃ item,
      search_doc_to_stac_item (mkSearchDoc cfields) =
        .ok (item, mkSearchDoc (dictSetF cfields (.str "assets")
          (.arr (pairs.map (fun p => Json.obj p.2))))) :=
  ⟨_, search_doc_spec pairs cfields hassets hshape⟩

/-- Witness for `C6_normalization_mutates` at a one-asset document. -/
theorem C6_normalization_mutates_witness :
    ∃ item,
      search_doc_to_stac_item (mkSearchDoc
          [(.str "assets", .arr [mkAsset (.str "data") [(.str "href", .str "x")]])]) =
        .ok (item, mkSearchDoc (dictSetF
          [(.str "assets", .arr [mkAsset (.str "data") [(.str "href", .str "x")]])]
          (.str "assets") (.arr [.obj [(.str "href", .str "x")]]))) :=
  C6_normalization_mutates [(.str "data", [(.str "href", .str "x")])]
    [(.str "assets", .arr [mkAsset (.str "data") [(.str "href", .str "x")]])]
    (by decide) (by decide)

/-- C5 counterexample: a document whose `assets` field is the *string*
`"[]"` is not parsed as embedded JSON — normalization raises `TypeError`
(iterating the string's characters and subscripting a one-character string
with a string key), while the same document with native `[]` assets
normalizes to an empty assets map. -/
theorem C5_string_assets_counterexample :
    search_doc_to_stac_item (mkSearchDoc [(.str "assets", .str "[]")]) =
      .error .typeError ∧
    search_doc_to_stac_item (mkSearchDoc [(.str "assets", .arr [])]) =
      .ok (.obj [(.str "assets", .obj [])],
           mkSearchDoc [(.str "assets", .arr [])]) := by
  exact ⟨by decide, by decide⟩

/-- C5 (amended): the normalizer does not parse string-stored assets.  For
every document whose `assets` value is a non-empty string, normalization
raises `TypeError`; an empty-string `assets` value yields an empty assets
map without any parsing. -/
theorem C5_string_assets_not_parsed (s : String) (cfields : List (Json × Json))
    (hs : s ≠ "")
    (hassets : lookupJ (.str "assets") cfields = some (.str s)) :
    search_doc_to_stac_item (mkSearchDoc cfields) = .error .typeError := by
  obtain ⟨sdata⟩ := s
  cases sdata with
  | nil => exact absurd rfl hs
  | cons c cs =>
      simp [search_doc_to_stac_item, mkSearchDoc, pyGetItem, lookupJ, pyIter, hassets,
        assetsLoop, processAsset, assetKeyLoop, String.singleton, String.push]

/-- Witness for `C5_string_assets_not_parsed` at a stringified asset list. -/
theorem C5_string_assets_not_parsed_witness :
    search_doc_to_stac_item (mkSearchDoc
      [(.str "assets", .str "[stringified asset list]")]) =
    .error .typeError :=
  C5_string_assets_not_parsed "[stringified asset list]"
    [(.str "assets", .str "[stringified asset list]")]
    (by decide) (by decide)

/-! ## The aggregation client
(`extensions/aggregration/client.GlobusSearchAggregationClient.aggregate`)

`globus_sdk.SearchQuery()` is a dict-like query document; only the keys the
client touches are modelled (`q` via `set_query`, `limit`, `marker`,
`filters`), each `none` when the key is absent.  The backend is an oracle
`post_search : GSearchQuery → Json` standing for
`self.client.post_search(SEARCH_INDEX_ID, search)` on the fixed index; the
embedding additionally returns the list of queries sent, so "performs
exactly one backend call" is the length of that log.  `urljoin` is modelled
for the only case the client uses — a base URL ending in `/` joined with a
relative path — where it is string concatenation. -/

structure GSearchQuery where
  q : Option String := none
  limit : Option Int := none
  marker : Option String := none
  filters : Option (List Json) := none
deriving DecidableEq

/-- `urljoin(base, rel)` for a relative `rel` against a base ending in
`/`. -/
def urljoinRel (base rel : String) : String := base ++ rel

def mkLink (rel typ href : String) : Json :=
  .obj [(.str "rel", .str rel), (.str "type", .str typ), (.str "href", .str href)]

/-- The `links` list: a root link, extended with collection and self links
when a collection id is supplied. -/
def aggLinks (base_url : String) (collection_id : Option String) : Json :=
  match collection_id with
  | none => .arr [mkLink "root" "application/json" base_url]
  | some cid =>
      .arr [mkLink "root" "application/json" base_url,
            mkLink "collection" "application/json"
              (urljoinRel base_url ("collections/" ++ cid)),
            mkLink "self" "application/json"
              (urljoinRel (urljoinRel base_url ("collections/" ++ cid) ++ "/") "aggregations")]

def mkAggResult (aggs links : Json) : Json :=
  .obj [(.str "type", .str "AggregationCollection"),
        (.str "aggregations", aggs),
        (.str "links", links)]

/-- The `for aggregation in aggregations:` loop: on the first name equal to
`total_count` it sets `q = "*"` on the query, posts it once, and returns the
single scalar aggregation built from `response["total"]`; any other name
does nothing; an exhausted loop returns an empty aggregations list with no
backend call. -/
def aggLoop (post_search : GSearchQuery → Json) (links : Json) (search : GSearchQuery) :
    List String → Except PyErr (Json × List GSearchQuery)
  | [] => .ok (mkAggResult (.arr []) links, [])
  | name :: rest =>
      if name = "total_count" then
        -- search.set_query("*"); response = self.client.post_search(...)
        let search1 := { search with q := some "*" }
        match pyGetItem (post_search search1) (.str "total") with
        | .error e => .error e
        | .ok total =>
            .ok (mkAggResult
                  (.arr [.obj [(.str "name", .str "total_count"),
                               (.str "data_type", .str "integer"),
                               (.str "value", total)]]) links,
                 [search1])
      else aggLoop post_search links search rest

/-- `GlobusSearchAggregationClient.aggregate`.  `collections` arrives via
`**kwargs` and is never read by the implementation; `aggregations = None`
fails when the `for` loop iterates it. -/
def aggregate (aggregations : Option (List String)) (collection_id : Option String)
    (collections : Option (List String)) (base_url : String)
    (post_search : GSearchQuery → Json) : Except PyErr (Json × List GSearchQuery) :=
  let _kwargs_collections := collections
  let links := aggLinks base_url collection_id
  match aggregations with
  | none => .error .typeError
  | some names => aggLoop post_search links {} names

/-- A backend oracle reporting `total = 1234` for every query. -/
def backend1234 : GSearchQuery → Json := fun _ => .obj [(.str "total", .num 1234)]

-- Spec concrete scenario 4: aggregate(["total_count"], collectionId="cmip6")
-- against a backend reporting total=1234 returns value 1234 with one call
example :
    aggregate (some ["total_count"]) (some "cmip6") none "https://api.example/" backend1234 =
      .ok (mkAggResult (.arr [.obj [(.str "name", .str "total_count"),
                                    (.str "data_type", .str "integer"),
                                    (.str "value", .num 1234)]])
             (aggLinks "https://api.example/" (some "cmip6")),
           [{ q := some "*" }]) := by decide

/-- The loop reaches the first `total_count` name with the query object
unmodified, whatever names precede it. -/
theorem aggLoop_total_count (post_search : GSearchQuery → Json) (links : Json)
    (search : GSearchQuery) (t : Json)
    (htotal : pyGetItem (post_search { search with q := some "*" }) (.str "total") = .ok t) :
    ∀ names : List String, "total_count" ∈ names →
    aggLoop post_search links search names =
      .ok (mkAggResult
            (.arr [.obj [(.str "name", .str "total_count"),
                         (.str "data_type", .str "integer"),
                         (.str "value", t)]]) links,
           [{ search with q := some "*" }]) := by
  intro names
  induction names with
  | nil => intro h; simp at h
  | cons n rest ih =>
      intro hmem
      by_cases hn : n = "total_count"
      · simp only [aggLoop, if_pos hn, htotal]
      · have hrest : "total_count" ∈ rest := by
          rcases List.mem_cons.mp hmem with h | h
          · exact absurd h.symm hn
          · exact h
        simp only [aggLoop, if_neg hn]
        exact ih hrest

/-- C7 counterexample: the single query `aggregate` sends for `total_count`
is `{q: "*"}` with no result-size limit and no filters attached — not the
zero-result-size, filters-applied query the claim describes (the backend's
default page size applies instead). -/
theorem C7_total_count_counterexample :
    aggregate (some ["total_count"]) (some "cmip6") none "https://api.example/" backend1234 =
      .ok (mkAggResult (.arr [.obj [(.str "name", .str "total_count"),
                                    (.str "data_type", .str "integer"),
                                    (.str "value", .num 1234)]])
             (aggLinks "https://api.example/" (some "cmip6")),
           [{ q := some "*" }]) ∧
    ({ q := some "*" } : GSearchQuery).limit ≠ some 0 ∧
    ({ q := some "*" } : GSearchQuery).filters = none := by
  exact ⟨by decide, by decide, by decide⟩

/-- C7 (amended): calling `aggregate` with a name list containing
`total_count` performs exactly one backend call — a match-everything query
`{q: "*"}` carrying no result-size limit and no filters — and returns the
single record `{name: "total_count", data_type: "integer", value: t}` where
`t` is whatever total the backend reports for that query, short-circuiting
before evaluating any other requested name. -/
theorem C7_total_count (names : List String) (hmem : "total_count" ∈ names)
    (collection_id : Option String) (collections : Option (List String))
    (base_url : String) (post_search : GSearchQuery → Json) (t : Json)
    (htotal : pyGetItem (post_search { q := some "*" }) (.str "total") = .ok t) :
    aggregate (some names) collection_id collections base_url post_search =
      .ok (mkAggResult
            (.arr [.obj [(.str "name", .str "total_count"),
                         (.str "data_type", .str "integer"),
                         (.str "value", t)]])
            (aggLinks base_url collection_id),
           [{ q := some "*" }]) ∧
    ({ q := some "*" } : GSearchQuery).limit = none ∧
    ({ q := some "*" } : GSearchQuery).filters = none := by
  refine ⟨?_, rfl, rfl⟩
  show aggLoop post_search (aggLinks base_url collection_id) {} names = _
  exact aggLoop_total_count post_search _ {} t htotal names hmem

/-- Witness for `C7_total_count`: a list with a preceding non-special name,
against the 1234-total backend. -/
theorem C7_total_count_witness :
    aggregate (some ["cmip6_experiment_id_frequency", "total_count"]) (some "cmip6") none
        "https://api.example/" backend1234 =
      .ok (mkAggResult
            (.arr [.obj [(.str "name", .str "total_count"),
                         (.str "data_type", .str "integer"),
                         (.str "value", .num 1234)]])
            (aggLinks "https://api.example/" (some "cmip6")),
           [{ q := some "*" }]) ∧
    ({ q := some "*" } : GSearchQuery).limit = none ∧
    ({ q := some "*" } : GSearchQuery).filters = none :=
  C7_total_count ["cmip6_experiment_id_frequency", "total_count"] (by decide)
    (some "cmip6") none "https://api.example/" backend1234 (.num 1234) (by decide)

/-- C8: for a requested aggregation name other than `total_count`, the
shipped `aggregate` does nothing — no facet is derived, no backend call is
made, and the response's aggregations list is empty (the facet path is
commented out in the source, while the repository's own tests expect a
one-call terms-facet response reshaped under the requested name). -/
theorem C8_facet_names_ignored :
    aggregate (some ["cmip6_experiment_id_frequency"]) (some "cmip6") none
        "https://api.example/" backend1234 =
      .ok (mkAggResult (.arr []) (aggLinks "https://api.example/" (some "cmip6")), []) := by
  decide

/-- C9: supplying both an explicit collection id and an explicit collection
list does not raise any error: `collections` lands in `**kwargs` and is
ignored, the call succeeds and still performs its one backend call (the
repository's own test expects an HTTPException 400 before any call). -/
theorem C9_no_conflict_validation :
    aggregate (some ["total_count"]) (some "cmip6") (some ["cmip6"])
        "https://api.example/" backend1234 =
      .ok (mkAggResult
            (.arr [.obj [(.str "name", .str "total_count"),
                         (.str "data_type", .str "integer"),
                         (.str "value", .num 1234)]])
            (aggLinks "https://api.example/" (some "cmip6")),
           [{ q := some "*" }]) := by
  decide

/-! ## General asset records: `name` at any position, `alternate` permitted

The claims C4 and C10 range over arbitrary name-carrying asset records.
The Python record is a dict, so its keys are distinct; the `name` binding
may sit anywhere, and an `alternate` binding — when present — is rewritten
in place by the one-level promotion.  The lemmas below characterize the key
walk for such records. -/

theorem lookupJ_eq_none_iff (k : Json) (l : List (Json × Json)) :
    lookupJ k l = none ↔ k ∉ l.map Prod.fst := by
  induction l with
  | nil => simp [lookupJ]
  | cons p rest ih =>
      by_cases h : p.1 = k
      · simp [lookupJ, h]
      · simp only [lookupJ, if_neg h, List.map_cons, List.mem_cons]
        rw [ih]
        constructor
        · intro hn
          rintro (hc | hc)
          · exact h hc.symm
          · exact hn hc
        · intro hn hc
          exact hn (Or.inr hc)

theorem lookupJ_middle (pre suf : List (Json × Json)) (k v : Json)
    (h : k ∉ pre.map Prod.fst) :
    lookupJ k (pre ++ (k, v) :: suf) = some v := by
  induction pre with
  | nil => simp [lookupJ]
  | cons p rest ih =>
      simp only [List.map_cons, List.mem_cons] at h
      have h1 : p.1 ≠ k := fun hc => h (Or.inl hc.symm)
      simp only [List.cons_append, lookupJ, if_neg h1]
      exact ih (fun hc => h (Or.inr hc))

theorem dictPopF_middle (pre suf : List (Json × Json)) (k v : Json)
    (h : k ∉ pre.map Prod.fst) :
    dictPopF (pre ++ (k, v) :: suf) k = pre ++ suf := by
  induction pre with
  | nil => simp [dictPopF]
  | cons p rest ih =>
      simp only [List.map_cons, List.mem_cons] at h
      have h1 : p.1 ≠ k := fun hc => h (Or.inl hc.symm)
      simp only [List.cons_append, dictPopF, if_neg h1, List.append_eq]
      rw [ih (fun hc => h (Or.inr hc))]

theorem dictSetF_middle (pre suf : List (Json × Json)) (k v w : Json)
    (h : k ∉ pre.map Prod.fst) :
    dictSetF (pre ++ (k, v) :: suf) k w = pre ++ (k, w) :: suf := by
  induction pre with
  | nil => simp [dictSetF]
  | cons p rest ih =>
      simp only [List.map_cons, List.mem_cons] at h
      have h1 : p.1 ≠ k := fun hc => h (Or.inl hc.symm)
      simp only [List.cons_append, dictSetF, if_neg h1, List.append_eq]
      rw [ih (fun hc => h (Or.inr hc))]

theorem lookupJ_some_decomp (k v : Json) (l : List (Json × Json))
    (h : lookupJ k l = some v) :
    ∃ a1 a2, l = a1 ++ (k, v) :: a2 ∧ k ∉ a1.map Prod.fst := by
  induction l with
  | nil => simp [lookupJ] at h
  | cons p rest ih =>
      by_cases h1 : p.1 = k
      · have hv : p.2 = v := by
          simpa [lookupJ, h1] using h
        refine ⟨[], rest, ?_, by simp⟩
        simp [← h1, ← hv]
      · have h' : lookupJ k rest = some v := by simpa [lookupJ, h1] using h
        rcases ih h' with ⟨a1, a2, hdec, hna⟩
        refine ⟨p :: a1, a2, by simp [hdec], ?_⟩
        simp only [List.map_cons, List.mem_cons]
        rintro (hc | hc)
        · exact h1 hc.symm
        · exact hna hc

theorem assetKeyLoop_step_other (k : Json) (rest : List Json)
    (fields : List (Json × Json)) (nm : Option Json) (v : Json)
    (hv : lookupJ k fields = some v)
    (h1 : k ≠ .str "name") (h2 : k ≠ .str "alternate") :
    assetKeyLoop (k :: rest) (.obj fields) nm = assetKeyLoop rest (.obj fields) nm := by
  simp only [assetKeyLoop, pyGetItem, hv, if_neg h1, if_neg h2]

theorem assetKeyLoop_step_name (rest : List Json) (fields : List (Json × Json))
    (nm : Option Json) (n : Json)
    (hn : lookupJ (.str "name") fields = some n) :
    assetKeyLoop (.str "name" :: rest) (.obj fields) nm =
      assetKeyLoop rest (.obj (dictPopF fields (.str "name"))) (some n) := by
  simp [assetKeyLoop, pyGetItem, hn]

theorem assetKeyLoop_step_alt (rest : List Json) (fields : List (Json × Json))
    (nm : Option Json) (av t : Json)
    (ha : lookupJ (.str "alternate") fields = some av)
    (hp : promoteAlternates av = .ok t) :
    assetKeyLoop (.str "alternate" :: rest) (.obj fields) nm =
      assetKeyLoop rest (.obj (dictSetF fields (.str "alternate") t)) nm := by
  simp [assetKeyLoop, pyGetItem, ha, hp]

theorem assetKeyLoop_walk (K rest : List Json) (fields : List (Json × Json))
    (nm : Option Json)
    (h1 : ∀ k ∈ K, k ∈ fields.map Prod.fst)
    (h2 : (Json.str "name") ∉ K) (h3 : (Json.str "alternate") ∉ K) :
    assetKeyLoop (K ++ rest) (.obj fields) nm = assetKeyLoop rest (.obj fields) nm := by
  induction K with
  | nil => rfl
  | cons k ks ih =>
      rcases lookupJ_mem k fields (h1 k (by simp)) with ⟨v, hv⟩
      have hkn : k ≠ .str "name" := by rintro rfl; exact h2 (by simp)
      have hka : k ≠ .str "alternate" := by rintro rfl; exact h3 (by simp)
      rw [List.cons_append, assetKeyLoop_step_other k (ks ++ rest) fields nm v hv hkn hka]
      exact ih (fun k' h' => h1 k' (by simp [h'])) (fun h' => h2 (by simp [h']))
        (fun h' => h3 (by simp [h']))

/-- `true` iff the computation succeeded. -/
def isOkE (r : Except PyErr Json) : Bool :=
  match r with
  | .ok _ => true
  | .error _ => false

/-- The record a processed asset ends up as, given its bindings minus the
`name` one: a present `alternate` binding is replaced in place by the map
the one-level promotion produces; everything else is untouched.  (The error
branch is unreachable under the well-formedness hypotheses below.) -/
def assetFinalF (rest : List (Json × Json)) : List (Json × Json) :=
  match lookupJ (.str "alternate") rest with
  | none => rest
  | some av =>
      match promoteAlternates av with
      | .ok t => dictSetF rest (.str "alternate") t
      | .error _ => rest

/-- Processing one dict-shaped asset record carrying a `name` binding at an
arbitrary position: the record is keyed under its name value, the `name`
binding is popped, and a present `alternate` binding (whose value must
promote without error) is rewritten in place to the promoted map. -/
theorem processAsset_spec (pre suf : List (Json × Json)) (n : Json)
    (hnodup : ((pre ++ (.str "name", n) :: suf).map Prod.fst).Nodup)
    (halt : (match lookupJ (.str "alternate") (pre ++ suf) with
             | none => true
             | some av => isOkE (promoteAlternates av)) = true) :
    processAsset (.obj (pre ++ (.str "name", n) :: suf)) =
      .ok (.obj (assetFinalF (pre ++ suf)), some n) := by
  have hkeys : (pre ++ (.str "name", n) :: suf).map Prod.fst
      = pre.map Prod.fst ++ .str "name" :: suf.map Prod.fst := by simp
  rw [hkeys] at hnodup
  obtain ⟨hnp, hns', hdisj⟩ := List.nodup_append.mp hnodup
  obtain ⟨hname_suf, hnsufN⟩ := List.nodup_cons.mp hns'
  have hname_pre : (Json.str "name") ∉ pre.map Prod.fst :=
    fun hc => hdisj hc (by simp)
  unfold processAsset
  simp only [pyIter, List.map_append, List.map_cons]
  cases hlk : lookupJ (.str "alternate") (pre ++ suf) with
  | none =>
      have hanotin : (Json.str "alternate") ∉ (pre ++ suf).map Prod.fst :=
        (lookupJ_eq_none_iff _ _).mp hlk
      have hapre : (Json.str "alternate") ∉ pre.map Prod.fst :=
        fun hc => hanotin (by simp [hc])
      have hasuf : (Json.str "alternate") ∉ suf.map Prod.fst :=
        fun hc => hanotin (by simp [hc])
      rw [assetKeyLoop_walk (pre.map Prod.fst) _ _ none
        (fun k hk => by simp [hk]) hname_pre hapre]
      rw [assetKeyLoop_step_name _ _ none n (lookupJ_middle pre suf _ n hname_pre)]
      rw [dictPopF_middle pre suf _ n hname_pre]
      have hwalk := assetKeyLoop_walk (suf.map Prod.fst) [] (pre ++ suf) (some n)
        (fun k hk => by simp [hk]) hname_suf hasuf
      rw [List.append_nil] at hwalk
      rw [hwalk]
      simp [assetKeyLoop, assetFinalF, hlk]
  | some av =>
      have hok : isOkE (promoteAlternates av) = true := by rw [hlk] at halt; exact halt
      obtain ⟨t, ht⟩ : ∃ t, promoteAlternates av = .ok t := by
        cases hpa : promoteAlternates av with
        | ok t => exact ⟨t, rfl⟩
        | error e => rw [hpa] at hok; simp [isOkE] at hok
      cases hpreL : lookupJ (.str "alternate") pre with
      | some av1 =>
          have happ := lookupJ_append (.str "alternate") pre suf
          rw [hpreL] at happ
          simp only [] at happ
          rw [hlk] at happ
          have hav : av = av1 := Option.some.inj happ
          subst hav
          obtain ⟨p1, p2, hdec, hp1⟩ := lookupJ_some_decomp (.str "alternate") av pre hpreL
          subst hdec
          have hn_p1 : (Json.str "name") ∉ p1.map Prod.fst :=
            fun hc => hname_pre (by simp [hc])
          have hn_p2 : (Json.str "name") ∉ p2.map Prod.fst :=
            fun hc => hname_pre (by simp [hc])
          have hnp' : (p1.map Prod.fst ++ .str "alternate" :: p2.map Prod.fst).Nodup := by
            simpa using hnp
          have ha_p2 : (Json.str "alternate") ∉ p2.map Prod.fst := by
            obtain ⟨_, h2, _⟩ := List.nodup_append.mp hnp'
            exact (List.nodup_cons.mp h2).1
          have ha_suf : (Json.str "alternate") ∉ suf.map Prod.fst := by
            intro hc
            exact hdisj (by simp : (Json.str "alternate") ∈
              (p1 ++ (Json.str "alternate", av) :: p2).map Prod.fst) (by simp [hc])
          simp only [List.map_append, List.map_cons, List.append_assoc, List.cons_append]
          rw [assetKeyLoop_walk (p1.map Prod.fst) _ _ none
            (fun k hk => by simp [hk]) hn_p1 hp1]
          have hlkX : lookupJ (.str "alternate")
              (p1 ++ (.str "alternate", av) :: (p2 ++ (.str "name", n) :: suf)) = some av :=
            lookupJ_middle p1 _ _ av hp1
          rw [assetKeyLoop_step_alt _ _ none av t hlkX ht]
          rw [dictSetF_middle p1 _ _ av t hp1]
          rw [assetKeyLoop_walk (p2.map Prod.fst) _ _ none
            (fun k hk => by simp [hk]) hn_p2 ha_p2]
          have hnmid : (Json.str "name") ∉ (p1 ++ (.str "alternate", t) :: p2).map Prod.fst := by
            simp only [List.map_append, List.map_cons, List.mem_append, List.mem_cons]
            rintro (hc | hc | hc)
            · exact hn_p1 hc
            · exact absurd hc (by decide)
            · exact hn_p2 hc
          have hlknm := lookupJ_middle (p1 ++ (.str "alternate", t) :: p2) suf (.str "name") n hnmid
          simp only [List.append_assoc, List.cons_append] at hlknm
          rw [assetKeyLoop_step_name _ _ none n hlknm]
          have hpop := dictPopF_middle (p1 ++ (.str "alternate", t) :: p2) suf (.str "name") n hnmid
          simp only [List.append_assoc, List.cons_append] at hpop
          rw [hpop]
          have hwalk := assetKeyLoop_walk (suf.map Prod.fst) []
            (p1 ++ (.str "alternate", t) :: (p2 ++ suf)) (some n)
            (fun k hk => by simp [hk]) hname_suf ha_suf
          rw [List.append_nil] at hwalk
          rw [hwalk]
          have hlkR := lookupJ_middle p1 (p2 ++ suf) (.str "alternate") av hp1
          have hsetR := dictSetF_middle p1 (p2 ++ suf) (.str "alternate") av t hp1
          simp [assetKeyLoop, assetFinalF, hlkR, ht, hsetR]
      | none =>
          have hapre : (Json.str "alternate") ∉ pre.map Prod.fst :=
            (lookupJ_eq_none_iff _ _).mp hpreL
          have hsufL : lookupJ (.str "alternate") suf = some av := by
            have happ := lookupJ_append (.str "alternate") pre suf
            rw [hpreL] at happ
            simp only [] at happ
            rw [hlk] at happ
            exact happ.symm
          obtain ⟨s1, s2, hdec, hs1⟩ := lookupJ_some_decomp (.str "alternate") av suf hsufL
          subst hdec
          have hn_s1 : (Json.str "name") ∉ s1.map Prod.fst :=
            fun hc => hname_suf (by simp [hc])
          have hn_s2 : (Json.str "name") ∉ s2.map Prod.fst :=
            fun hc => hname_suf (by simp [hc])
          have hnsuf' : (s1.map Prod.fst ++ .str "alternate" :: s2.map Prod.fst).Nodup := by
            simpa using hnsufN
          have ha_s2 : (Json.str "alternate") ∉ s2.map Prod.fst := by
            obtain ⟨_, h2, _⟩ := List.nodup_append.mp hnsuf'
            exact (List.nodup_cons.mp h2).1
          simp only [List.map_append, List.map_cons, List.append_assoc, List.cons_append]
          rw [assetKeyLoop_walk (pre.map Prod.fst) _ _ none
            (fun k hk => by simp [hk]) hname_pre hapre]
          have hlknm := lookupJ_middle pre (s1 ++ (.str "alternate", av) :: s2) (.str "name") n
            hname_pre
          rw [assetKeyLoop_step_name _ _ none n hlknm]
          rw [dictPopF_middle pre (s1 ++ (.str "alternate", av) :: s2) (.str "name") n hname_pre]
          rw [assetKeyLoop_walk (s1.map Prod.fst) _ _ (some n)
            (fun k hk => by simp [hk]) hn_s1 hs1]
          have hamid : (Json.str "alternate") ∉ (pre ++ s1).map Prod.fst := by
            simp only [List.map_append, List.mem_append]
            rintro (hc | hc)
            · exact hapre hc
            · exact hs1 hc
          have hlkX := lookupJ_middle (pre ++ s1) s2 (.str "alternate") av hamid
          simp only [List.append_assoc, List.cons_append] at hlkX
          rw [assetKeyLoop_step_alt _ _ (some n) av t hlkX ht]
          have hsetX := dictSetF_middle (pre ++ s1) s2 (.str "alternate") av t hamid
          simp only [List.append_assoc, List.cons_append] at hsetX
          rw [hsetX]
          have hwalk := assetKeyLoop_walk (s2.map Prod.fst) []
            (pre ++ (s1 ++ (.str "alternate", t) :: s2)) (some n)
            (fun k hk => by simp [hk]) hn_s2 ha_s2
          rw [List.append_nil] at hwalk
          rw [hwalk]
          have hlkR := lookupJ_middle (pre ++ s1) s2 (.str "alternate") av hamid
          have hsetR := dictSetF_middle (pre ++ s1) s2 (.str "alternate") av t hamid
          simp only [List.append_assoc, List.cons_append] at hlkR hsetR
          simp [assetKeyLoop, assetFinalF, hlkR, ht, hsetR]

/-- A dict-shaped asset record carrying a `name` binding: the bindings
before it, the name value, and the bindings after it. -/
structure AssetRec where
  pre : List (Json × Json)
  nameVal : Json
  suf : List (Json × Json)

/-- The record as a JSON object. -/
def AssetRec.json (a : AssetRec) : Json :=
  .obj (a.pre ++ (.str "name", a.nameVal) :: a.suf)

/-- The record's bindings with the `name` one removed. -/
def AssetRec.rest (a : AssetRec) : List (Json × Json) :=
  a.pre ++ a.suf

/-- The record's final state after processing: `name` popped and a present
`alternate` binding rewritten in place to its promoted map. -/
def AssetRec.stripped (a : AssetRec) : Json :=
  .obj (assetFinalF (a.pre ++ a.suf))

/-- Well-formedness of the record as a dict: no duplicate keys, and a
present `alternate` value promotes without error. -/
def AssetRec.wf (a : AssetRec) : Bool :=
  decide (((a.pre ++ (.str "name", a.nameVal) :: a.suf).map Prod.fst).Nodup) &&
  (match lookupJ (.str "alternate") (a.pre ++ a.suf) with
   | none => true
   | some av => isOkE (promoteAlternates av))

theorem processAsset_desc (a : AssetRec) (h : a.wf = true) :
    processAsset a.json = .ok (a.stripped, some a.nameVal) := by
  obtain ⟨pre, n, suf⟩ := a
  simp only [AssetRec.wf, Bool.and_eq_true, decide_eq_true_eq] at h
  exact processAsset_spec pre suf n h.1 h.2

theorem assetsLoop_spec2 (descs : List AssetRec)
    (hwf : ∀ a ∈ descs, a.wf = true) :
    ∀ done dict,
      assetsLoop (descs.map AssetRec.json) done dict =
        .ok (done ++ descs.map AssetRec.stripped,
             List.foldl (fun d a => dictSetF d a.nameVal a.stripped) dict descs) := by
  revert hwf
  induction descs with
  | nil => intro _ done dict; simp [assetsLoop]
  | cons a rest ih =>
      intro hwf done dict
      simp only [List.map_cons, assetsLoop, processAsset_desc a (hwf a (by simp))]
      rw [ih (fun q hq => hwf q (by simp [hq])) (done ++ [a.stripped])
        (dictSetF dict a.nameVal a.stripped)]
      simp

/-- Full behaviour of the normalizer on a document whose assets are
dict-shaped records each carrying a `name` binding somewhere (duplicate
keys excluded, present `alternate` values promotable): the item rebinds
`assets` to the accumulated dict, and the post-call document has each asset
record replaced by its final (name-stripped, alternate-promoted) state. -/
theorem search_doc_spec2 (descs : List AssetRec) (cfields : List (Json × Json))
    (hassets : lookupJ (.str "assets") cfields = some (.arr (descs.map AssetRec.json)))
    (hwf : ∀ a ∈ descs, a.wf = true) :
    search_doc_to_stac_item (mkSearchDoc cfields) =
      .ok (.obj (dictSetF cfields (.str "assets")
             (.obj (List.foldl (fun d a => dictSetF d a.nameVal a.stripped) [] descs))),
           mkSearchDoc (dictSetF cfields (.str "assets")
             (.arr (descs.map AssetRec.stripped)))) := by
  simp [search_doc_to_stac_item, mkSearchDoc, pyGetItem, lookupJ, pyIter,
    dictSetJ, listSetJ, hassets, assetsLoop_spec2 descs hwf, dictSetF]

theorem foldl_dictSetF_kv (pairs : List (Json × Json)) :
    ∀ dict, (∀ p ∈ pairs, lookupJ p.1 dict = none) → (pairs.map Prod.fst).Nodup →
    List.foldl (fun d p => dictSetF d p.1 p.2) dict pairs = dict ++ pairs := by
  induction pairs with
  | nil => intro dict _ _; simp
  | cons p rest ih =>
      intro dict hfresh hnodup
      simp only [List.map_cons, List.nodup_cons] at hnodup
      simp only [List.foldl_cons]
      rw [dictSetF_fresh dict p.1 _ (hfresh p (by simp))]
      rw [ih (dict ++ [(p.1, p.2)]) ?_ hnodup.2]
      · simp
      · intro q hq
        rw [lookupJ_append]
        rw [hfresh q (by simp [hq])]
        have hne : ¬(p.1 = q.1) := by
          intro hc
          exact hnodup.1 (hc ▸ List.mem_map_of_mem Prod.fst hq)
        simp [lookupJ, hne]

theorem lookupJ_foldl_kv (pairs : List (Json × Json)) :
    ∀ (dict : List (Json × Json)) (k : Json),
    lookupJ k (List.foldl (fun d p => dictSetF d p.1 p.2) dict pairs) =
      match pairs.reverse.find? (fun p => decide (p.1 = k)) with
      | some p => some p.2
      | none => lookupJ k dict := by
  induction pairs with
  | nil => intro dict k; simp
  | cons p rest ih =>
      intro dict k
      simp only [List.foldl_cons, ih, List.reverse_cons, List.find?_append]
      cases hfind : rest.reverse.find? (fun q => decide (q.1 = k)) with
      | some q => simp
      | none =>
          simp only [Option.none_or]
          rw [lookupJ_dictSetF]
          by_cases hk : p.1 = k
          · simp [List.find?, hk]
          · simp [List.find?, hk]

theorem foldl_descs_eq (descs : List AssetRec) (dict : List (Json × Json)) :
    List.foldl (fun d a => dictSetF d a.nameVal a.stripped) dict descs =
      List.foldl (fun d p => dictSetF d p.1 p.2) dict
        (descs.map (fun a => (a.nameVal, a.stripped))) := by
  rw [List.foldl_map]

/-- C4 counterexample: the claimed output shape fails for an asset carrying
an `alternate` binding.  The document with assets
`[{name: "data", alternate: []}]` normalizes, but the record stored under
`"data"` is `{alternate: {}}` — the `alternate` field was rewritten from
the list `[]` to the dict `{}`, not preserved. -/
theorem C4_assets_list_to_map_counterexample :
    search_doc_to_stac_item (mkSearchDoc
        [(.str "assets", .arr
           [.obj [(.str "name", .str "data"), (.str "alternate", .arr [])]])]) =
      .ok (.obj [(.str "assets",
             .obj [(.str "data", .obj [(.str "alternate", .obj [])])])],
           mkSearchDoc [(.str "assets",
             .arr [.obj [(.str "alternate", .obj [])]])]) ∧
    Json.obj [(.str "alternate", .obj [])] ≠ .obj [(.str "alternate", .arr [])] := by
  exact ⟨by decide, by decide⟩

/-- C4 (amended): for every backend document whose content holds assets as
a list of dict-shaped records, each carrying a `name` binding at any
position, with distinct name values, no duplicate keys, and any present
`alternate` value promotable without error, normalization rebinds `assets`
to the map that keys each record under its name value in input order, with
the record's `name` binding removed, a present `alternate` binding
rewritten in place to its promoted one-level map, and all other bindings
preserved in order. -/
theorem C4_assets_list_to_map (descs : List AssetRec) (cfields : List (Json × Json))
    (hassets : lookupJ (.str "assets") cfields = some (.arr (descs.map AssetRec.json)))
    (hwf : ∀ a ∈ descs, a.wf = true)
    (hnodup : (descs.map AssetRec.nameVal).Nodup) :
    search_doc_to_stac_item (mkSearchDoc cfields) =
      .ok (.obj (dictSetF cfields (.str "assets")
             (.obj (descs.map (fun a => (a.nameVal, a.stripped))))),
           mkSearchDoc (dictSetF cfields (.str "assets")
             (.arr (descs.map AssetRec.stripped)))) := by
  rw [search_doc_spec2 descs cfields hassets hwf]
  have hfold : List.foldl (fun d a => dictSetF d a.nameVal a.stripped) [] descs
      = descs.map (fun a => (a.nameVal, a.stripped)) := by
    rw [foldl_descs_eq]
    rw [foldl_dictSetF_kv _ [] (fun p _ => rfl) ?_]
    · simp
    · rw [List.map_map]
      exact hnodup
  rw [hfold]

/-- C4 witness: two assets, the first carrying `href` before `name` and an
`alternate` list after it, the second name-first; the output assets map
keys them as `data` (alternate promoted in place) and `meta`. -/
theorem C4_assets_list_to_map_witness :
    search_doc_to_stac_item (mkSearchDoc
        [(.str "assets", .arr
           [.obj [(.str "href", .str "x"), (.str "name", .str "data"),
                  (.str "alternate", .arr [.obj [(.str "name", .str "s3"),
                                                 (.str "href", .str "y")]])],
            .obj [(.str "name", .str "meta"), (.str "href", .str "z")]])]) =
      .ok (.obj [(.str "assets",
             .obj [(.str "data",
                    .obj [(.str "href", .str "x"),
                          (.str "alternate",
                           .obj [(.str "s3", .obj [(.str "href", .str "y")])])]),
                   (.str "meta", .obj [(.str "href", .str "z")])])],
           mkSearchDoc [(.str "assets",
             .arr [.obj [(.str "href", .str "x"),
                         (.str "alternate",
                          .obj [(.str "s3", .obj [(.str "href", .str "y")])])],
                   .obj [(.str "href", .str "z")]])]) := by
  exact C4_assets_list_to_map
    [⟨[(.str "href", .str "x")], .str "data",
      [(.str "alternate", .arr [.obj [(.str "name", .str "s3"),
                                      (.str "href", .str "y")]])]⟩,
     ⟨[], .str "meta", [(.str "href", .str "z")]⟩]
    [(.str "assets", .arr
       [.obj [(.str "href", .str "x"), (.str "name", .str "data"),
              (.str "alternate", .arr [.obj [(.str "name", .str "s3"),
                                             (.str "href", .str "y")]])],
        .obj [(.str "name", .str "meta"), (.str "href", .str "z")]])]
    (by decide) (by decide) (by decide)

/-- C10 counterexample: for duplicate names the output does not bind the
shared key to exactly the last asset with `name` removed — a last asset
carrying `alternate: []` is stored with `alternate` rewritten to `{}` —
and normalization can fail outright: a last asset whose `alternate` value
is the number `0` raises TypeError. -/
theorem C10_duplicate_names_last_wins_counterexample :
    (search_doc_to_stac_item (mkSearchDoc
        [(.str "assets", .arr
           [.obj [(.str "name", .str "data"), (.str "href", .str "x")],
            .obj [(.str "name", .str "data"), (.str "alternate", .arr [])]])]) =
      .ok (.obj [(.str "assets",
             .obj [(.str "data", .obj [(.str "alternate", .obj [])])])],
           mkSearchDoc [(.str "assets",
             .arr [.obj [(.str "href", .str "x")],
                   .obj [(.str "alternate", .obj [])]])]) ∧
     Json.obj [(.str "alternate", .obj [])] ≠ .obj [(.str "alternate", .arr [])]) ∧
    search_doc_to_stac_item (mkSearchDoc
        [(.str "assets", .arr
           [.obj [(.str "name", .str "data"), (.str "href", .str "x")],
            .obj [(.str "name", .str "data"), (.str "alternate", .num 0)]])]) =
      .error .typeError := by
  exact ⟨⟨by decide, by decide⟩, by decide⟩

/-- C10 (amended): for every backend document whose assets are dict-shaped
records each carrying a `name` binding (duplicate name values permitted;
per-record keys distinct and any present `alternate` value promotable),
normalization succeeds and, for every key, the output assets map binds it
to the final processed state — `name` removed and `alternate` promoted in
place — of the last input record whose name value equals that key, and to
nothing when no record carries it. -/
theorem C10_duplicate_names_last_wins (descs : List AssetRec)
    (cfields : List (Json × Json))
    (hassets : lookupJ (.str "assets") cfields = some (.arr (descs.map AssetRec.json)))
    (hwf : ∀ a ∈ descs, a.wf = true) (k : Json) :
    search_doc_to_stac_item (mkSearchDoc cfields) =
      .ok (.obj (dictSetF cfields (.str "assets")
             (.obj (List.foldl (fun d a => dictSetF d a.nameVal a.stripped) [] descs))),
           mkSearchDoc (dictSetF cfields (.str "assets")
             (.arr (descs.map AssetRec.stripped)))) ∧
    lookupJ k (List.foldl (fun d a => dictSetF d a.nameVal a.stripped) [] descs) =
      (match descs.reverse.find? (fun a => decide (a.nameVal = k)) with
       | some a => some a.stripped
       | none => none) := by
  refine ⟨search_doc_spec2 descs cfields hassets hwf, ?_⟩
  rw [foldl_descs_eq]
  rw [lookupJ_foldl_kv]
  rw [← List.map_reverse]
  rw [List.find?_map]
  have hcomp : ((fun p : Json × Json => decide (p.1 = k)) ∘
      fun a : AssetRec => (a.nameVal, a.stripped))
      = fun a : AssetRec => decide (a.nameVal = k) := rfl
  rw [hcomp]
  cases hf : descs.reverse.find? (fun a => decide (a.nameVal = k)) with
  | none => simp [lookupJ]
  | some a => simp

/-- C10 witness: two assets both named `data`; the output map binds `data`
to the stripped form of the second (last) one. -/
theorem C10_duplicate_names_last_wins_witness :
    search_doc_to_stac_item (mkSearchDoc
        [(.str "assets", .arr
           [.obj [(.str "name", .str "data"), (.str "href", .str "x")],
            .obj [(.str "name", .str "data"), (.str "href", .str "y")]])]) =
      .ok (.obj [(.str "assets",
             .obj [(.str "data", .obj [(.str "href", .str "y")])])],
           mkSearchDoc [(.str "assets",
             .arr [.obj [(.str "href", .str "x")],
                   .obj [(.str "href", .str "y")]])]) ∧
    lookupJ (.str "data") [(.str "data", .obj [(.str "href", .str "y")])] =
      some (.obj [(.str "href", .str "y")]) := by
  exact C10_duplicate_names_last_wins
    [⟨[], .str "data", [(.str "href", .str "x")]⟩,
     ⟨[], .str "data", [(.str "href", .str "y")]⟩]
    [(.str "assets", .arr
       [.obj [(.str "name", .str "data"), (.str "href", .str "x")],
        .obj [(.str "name", .str "data"), (.str "href", .str "y")]])]
    (by decide) (by decide) (.str "data")
